import Mathlib

/-!
Verification development for the ChurnInsight staged tabular pipeline
(contract loading/enforcement, categorical standardization, missing-value
imputation, train/test split preparation, supervised representation).

Each definition is a shallow embedding of the corresponding Python function,
with the source file and function named in its doc comment.  Machine floats
are modelled as rationals; pandas cells are `Option Val` with `none` playing
the role of NaN/None; fallible Python code (raising) is `Except String`.
Presentation-only artifacts of the source (structural memory snapshots,
rendered audit tables) are not modelled; the data-bearing fields the claims
quantify over are.
-/

deriving instance DecidableEq for Except

namespace ChurnInsight

/-- A scalar cell value: text, number (rationals standing in for Python
floats/ints) or boolean.  `src/...`: pandas cell contents. -/
inductive Val where
  | str (s : String)
  | num (q : ℚ)
  | boolV (b : Bool)
deriving DecidableEq, Repr

/-- A pandas cell: `none` models NaN/None (missing). -/
abbrev Cell := Option Val

/-- The pandas dtypes the pipeline distinguishes.  `object` covers
text/categorical columns. -/
inductive Dtype where
  | int64
  | float64
  | boolDt
  | object
deriving DecidableEq, Repr

/-- `pandas.api.types.is_numeric_dtype` (bool dtype counts as numeric). -/
def Dtype.isNumeric : Dtype → Bool
  | .int64 => true
  | .float64 => true
  | .boolDt => true
  | .object => false

/-- A named, typed pandas column. -/
structure Col where
  dtype : Dtype
  cells : List Cell
deriving DecidableEq, Repr

/-- A pandas DataFrame: ordered association list of named columns. -/
abbrev DataFrame := List (String × Col)

/-- `df.columns`. -/
def colNames (df : DataFrame) : List String := df.map Prod.fst

/-- `df[c]` as an option (first column named `c`). -/
def getCol? (df : DataFrame) (c : String) : Option Col :=
  (df.find? (fun p => p.1 = c)).map Prod.snd

/-- `df[c] = col` for an existing column `c` (in-place positional update,
as pandas column assignment keeps the column position). -/
def setCol (df : DataFrame) (c : String) (col : Col) : DataFrame :=
  df.map (fun p => if p.1 = c then (p.1, col) else p)

/-- `series.dropna()`: the non-null values in order. -/
def dropna (cells : List Cell) : List Val := cells.filterMap id

/-- Python `dict`/`set` style dedupe preserving first occurrence, with an
accumulator of already-seen items. -/
def dedupeAux {α : Type} [DecidableEq α] (seen : List α) : List α → List α
  | [] => []
  | x :: xs => if x ∈ seen then dedupeAux seen xs else x :: dedupeAux (x :: seen) xs

/-- `src/data/contract_loader.py: _dedupe_preserve_order` (also models
`pandas.Series.unique`, which preserves first-occurrence order). -/
def dedupePreserveOrder {α : Type} [DecidableEq α] (l : List α) : List α := dedupeAux [] l

/-- Number of rows of a DataFrame (length of its first column; 0 when there
are no columns).  Well-formed frames have all columns of equal length. -/
def nRows (df : DataFrame) : Nat :=
  match df with
  | [] => 0
  | (_, c) :: _ => c.cells.length

/-- `df.loc[:, cols]`: column projection, in the requested order.  Columns
absent from `df` are skipped (callers only use it with present columns). -/
def selectCols (df : DataFrame) (cols : List String) : DataFrame :=
  cols.filterMap (fun c => (getCol? df c).map (fun col => (c, col)))

-- ============================================================
-- Scope (src/features/contract_and_candidates.py: NormalizationScope)
-- ============================================================

/-- `src/features/contract_and_candidates.py: NormalizationScope`.
A frozen dataclass carrying `features` and `target`.  Note: the source
dataclass performs NO validation at construction time. -/
structure NormalizationScope where
  features : List String
  target : String
deriving DecidableEq, Repr

/-- `NormalizationScope.keep_columns`. -/
def NormalizationScope.keep_columns (s : NormalizationScope) : List String :=
  s.features ++ [s.target]

-- ============================================================
-- Categorical standardization
-- (src/features/categorical_standardization.py)
-- ============================================================

/-- Python `str(x)` on the cell values that occur in the pipeline (string
formatting of numbers is only used on text columns in this development). -/
def valToStr : Val → String
  | .str s => s
  | .num q => toString q
  | .boolV b => if b then "True" else "False"

/-- Python `s.strip()` on a character list: drop whitespace at both ends. -/
def stripChars (l : List Char) : List Char :=
  ((l.dropWhile Char.isWhitespace).reverse.dropWhile Char.isWhitespace).reverse

/-- Python `s.strip()`. -/
def pyStrip (s : String) : String := String.mk (stripChars s.data)

/-- Python `s.lower()` (ASCII lowering, which is all the pipeline's data
exercises). -/
def pyLower (s : String) : String := String.mk (s.data.map Char.toLower)

/-- Python `s.split()` on a character list: maximal runs of non-whitespace
characters (the accumulator holds the current word reversed). -/
def wordsAux (cur : List Char) : List Char → List (List Char)
  | [] => if cur.isEmpty then [] else [cur.reverse]
  | c :: cs =>
      if c.isWhitespace then
        if cur.isEmpty then wordsAux [] cs else cur.reverse :: wordsAux [] cs
      else wordsAux (c :: cur) cs

/-- Python `" ".join(words)` on character lists. -/
def joinSpace : List (List Char) → List Char
  | [] => []
  | [w] => w
  | w :: ws => w ++ ' ' :: joinSpace ws

/-- `_normalize_text_value`'s string pipeline: `s.strip().lower()`, then
`" ".join(s.split())` (collapse internal whitespace). -/
def pyNormalize (s : String) : String :=
  String.mk (joinSpace (wordsAux [] (stripChars (s.data.map Char.toLower))))

/-- `src/features/categorical_standardization.py: _normalize_text_value`:
nulls pass through; other values become normalized strings. -/
def normalizeTextValue : Cell → Cell
  | none => none
  | some v => some (.str (pyNormalize (valToStr v)))

/-- `pandas.Series.replace(phrase_map)` on one cell: exact-match substitution
of string values by the RAW mapping keys (the source passes `phrase_map`
itself, not the normalized rules, to `.replace`). -/
def replaceCell (pm : List (String × String)) : Cell → Cell
  | none => none
  | some (.str s) =>
      match pm.lookup s with
      | some t => some (.str t)
      | none => some (.str s)
  | some v => some v

/-- `src/features/categorical_standardization.py: StandardizationRule`
(key/value lowered and stripped, as built for `rules_df`). -/
structure StandardizationRule where
  from_value : String
  to_value : String
deriving DecidableEq, Repr

/-- Consolidated result of `apply_service_phrase_standardization`
(structural memory snapshots and the rendered audit-table sorting are
presentational and not modelled; `cells_changed` is kept per column in
execution order). -/
structure StdPayload where
  df : DataFrame
  rules : List StandardizationRule
  scoped_cols : List String
  cells_changed : List (String × Nat)
  total_cells_changed : Nat
deriving DecidableEq, Repr

/-- One iteration of the column loop in
`apply_service_phrase_standardization`: normalize the column, apply the raw
`phrase_map` substitutions, count changed cells (normalized vs replaced;
the both-null case is excluded by the mask, which plain `Cell` equality
already captures), and assign the column back (dtype becomes object). -/
def stdStep (pm : List (String × String)) (df : DataFrame) (c : String) : DataFrame × Nat :=
  match getCol? df c with
  | none => (df, 0)
  | some col =>
      let normalized := col.cells.map normalizeTextValue
      let replaced := normalized.map (replaceCell pm)
      let changed := (normalized.zip replaced).countP (fun p => decide (p.1 ≠ p.2))
      (setCol df c ⟨.object, replaced⟩, changed)

/-- The column loop of `apply_service_phrase_standardization`, threading the
mutated frame and accumulating the per-column audit counts. -/
def stdFold (pm : List (String × String)) (df : DataFrame) :
    List String → DataFrame × List (String × Nat)
  | [] => (df, [])
  | c :: rest =>
      let (df1, n) := stdStep pm df c
      let (df2, rows) := stdFold pm df1 rest
      (df2, (c, n) :: rows)

/-- `src/features/categorical_standardization.py:
apply_service_phrase_standardization` (lines 75-203).  Resolves the executed
scope (`cols_scope` restricted to existing columns, and to `features` when
given), builds the normalized rules table, and runs the substitution loop. -/
def apply_service_phrase_standardization (df : DataFrame)
    (phrase_map : List (String × String)) (cols_scope : List String)
    (features : Option (List String)) : StdPayload :=
  let cols0 := cols_scope.filter (fun c => (colNames df).contains c)
  let cols := match features with
    | none => cols0
    | some fs => cols0.filter (fun c => fs.contains c)
  let rules := phrase_map.map (fun p =>
    StandardizationRule.mk (pyLower (pyStrip p.1)) (pyLower (pyStrip p.2)))
  let (dfOut, rows) := stdFold phrase_map df cols
  { df := dfOut
    rules := rules
    scoped_cols := cols
    cells_changed := rows
    total_cells_changed := (rows.map Prod.snd).sum }

/-- `src/features/categorical_standardization.py:
run_categorical_standardization` (lines 206-287).  `features` is passed on
only when `scope` is present AND `scope.features` is truthy (non-empty) —
`if scope is not None and getattr(scope, "features", None):`. -/
def run_categorical_standardization (df : DataFrame)
    (scope : Option NormalizationScope) (phrase_map : List (String × String))
    (cols_scope : List String) : StdPayload :=
  let features : Option (List String) :=
    match scope with
    | some s => if s.features ≠ [] then some s.features else none
    | none => none
  apply_service_phrase_standardization df phrase_map cols_scope features

-- ============================================================
-- Missing-value imputation (src/features/missing_imputation.py)
-- ============================================================

/-- Total order on cell values used to model pandas sorting (mode ties are
resolved by pandas ascending sort; mixed-type columns do not occur in the
pipeline's data, booleans sort before numbers before strings here). -/
def valLe : Val → Val → Bool
  | .boolV a, .boolV b => !a || b
  | .boolV _, _ => true
  | .num _, .boolV _ => false
  | .num a, .num b => a ≤ b
  | .num _, .str _ => true
  | .str a, .str b => a ≤ b
  | .str _, _ => false

/-- Numeric view of a value (`bool` counts as 0/1 as in pandas). -/
def toNum? : Val → Option ℚ
  | .num q => some q
  | .boolV b => some (if b then 1 else 0)
  | .str _ => none

/-- `pandas.Series.median` on rationals: middle element of the sorted
values, or the average of the two middle elements. -/
def qMedian (xs : List ℚ) : Option ℚ :=
  let s := xs.insertionSort (· ≤ ·)
  let n := s.length
  if n = 0 then none
  else if n % 2 = 1 then s.get? (n / 2)
  else
    match s.get? (n / 2 - 1), s.get? (n / 2) with
    | some a, some b => some ((a + b) / 2)
    | _, _ => none

/-- `pandas.Series.mean` on rationals. -/
def qMean (xs : List ℚ) : Option ℚ :=
  if xs.length = 0 then none else some (xs.sum / xs.length)

/-- `series.mode(dropna=True).iloc[0]`: a value of maximal multiplicity;
pandas returns the modes sorted ascending, so ties resolve to the least. -/
def pandasMode (xs : List Val) : Option Val :=
  let uniq := dedupePreserveOrder xs
  let maxc := (uniq.map (fun v => xs.count v)).foldl max 0
  let best := uniq.filter (fun v => xs.count v = maxc)
  (best.insertionSort (fun a b => valLe a b = true)).head?

/-- `src/features/missing_imputation.py: ColumnImputationPlan`. -/
structure ColumnImputationPlan where
  column : String
  dtype : Dtype
  kind : String
  strategy : String
  fill_value : Option Val
deriving DecidableEq, Repr

/-- One `per_column` override entry: `strategy`/`fill_value` keys, each
possibly absent (`none`). -/
structure ImputeOverride where
  strategy : Option String
  fill_value : Option Val
deriving DecidableEq, Repr

/-- Python dict truthiness for an override: an empty dict is falsy and the
source skips it (`if override:`). -/
def overrideTruthy (o : ImputeOverride) : Bool :=
  o.strategy.isSome || o.fill_value.isSome

/-- The imputation `decision` dict.  `none` in an `Option` field models the
key being absent, so malformed decisions (missing required keys, invalid
strategy strings) are expressible. -/
structure ImputationDecision where
  numeric_strategy : Option String
  categorical_strategy : Option String
  numeric_fill_value : Option Val
  categorical_fill_value : Option Val
  include_cols : Option (List String)
  exclude_cols : List String
  per_column : List (String × ImputeOverride)
deriving DecidableEq, Repr

/-- `src/features/missing_imputation.py: _validate_decision` (lines
178-222).  Checks required keys, strategy domains, and that `constant`
strategies come with a fill value.  (The list/dict type checks of the
source are discharged by this embedding's types.) -/
def validateImpDecision (d : ImputationDecision) : Except String Unit :=
  if d.numeric_strategy.isNone || d.categorical_strategy.isNone then
    .error "decision incompleta. Campos obrigatorios ausentes."
  else if ¬ (d.numeric_strategy.getD "" = "median" ∨ d.numeric_strategy.getD "" = "mean"
      ∨ d.numeric_strategy.getD "" = "constant") then
    .error "numeric_strategy invalida."
  else if ¬ (d.categorical_strategy.getD "" = "most_frequent"
      ∨ d.categorical_strategy.getD "" = "constant") then
    .error "categorical_strategy invalida."
  else if d.numeric_strategy.getD "" = "constant" ∧ d.numeric_fill_value.isNone then
    .error "numeric_strategy constant exige numeric_fill_value."
  else if d.categorical_strategy.getD "" = "constant" ∧ d.categorical_fill_value.isNone then
    .error "categorical_strategy constant exige categorical_fill_value."
  else .ok ()

/-- The resolved column universe of `_apply_imputation` (lines 253-257):
`features` filtered by the include/exclude intent and by presence in the
frame. -/
def scopedCols (df : DataFrame) (scope : NormalizationScope)
    (d : ImputationDecision) : List String :=
  let intended := d.include_cols.getD scope.features
  scope.features.filter (fun c =>
    intended.contains c && !(d.exclude_cols.contains c) && (colNames df).contains c)

/-- The base (pre-override) strategy of `_apply_imputation` for a column:
the numeric or categorical strategy of the decision, by dtype. -/
def baseStrategy (d : ImputationDecision) (col : Col) : String :=
  if col.dtype.isNumeric then d.numeric_strategy.getD ""
  else d.categorical_strategy.getD ""

/-- The base (pre-override) fill value: the matching declared fill value
when the base strategy is `constant`, else `None`. -/
def baseFill (d : ImputationDecision) (col : Col) : Option Val :=
  if col.dtype.isNumeric then
    (if baseStrategy d col = "constant" then d.numeric_fill_value else none)
  else
    (if baseStrategy d col = "constant" then d.categorical_fill_value else none)

/-- Strategy/fill resolution for one column of `_apply_imputation` (lines
269-284): base strategy/fill from the column kind, then the `per_column`
override (a truthy override replaces the strategy when it carries one, and
a resulting `constant` strategy must carry an override fill value). -/
def planStrategyFill (d : ImputationDecision) (name : String) (col : Col) :
    Except String (String × Option Val) :=
  match (d.per_column.lookup name) with
  | some o =>
      if overrideTruthy o then
        if o.strategy.getD (baseStrategy d col) = "constant" then
          match o.fill_value with
          | none => .error "per_column exige fill_value."
          | some fv => .ok (o.strategy.getD (baseStrategy d col), some fv)
        else .ok (o.strategy.getD (baseStrategy d col), none)
      else .ok (baseStrategy d col, baseFill d col)
  | none => .ok (baseStrategy d col, baseFill d col)

/-- Plan construction for one column of `_apply_imputation` (lines
264-286). -/
def planFor (d : ImputationDecision) (name : String) (col : Col) :
    Except String ColumnImputationPlan :=
  match planStrategyFill d name col with
  | .error e => .error e
  | .ok (strategy, fv) =>
      .ok ⟨name, col.dtype,
        (if col.dtype.isNumeric then "numeric" else "categorical"), strategy, fv⟩

/-- The plan-building loop of `_apply_imputation` (all plans are built from
the pre-imputation frame). -/
def plansFor (df : DataFrame) (d : ImputationDecision) :
    List String → Except String (List ColumnImputationPlan)
  | [] => .ok []
  | c :: rest =>
      match getCol? df c with
      | none => .error "KeyError"
      | some col =>
          match planFor d c col with
          | .error e => .error e
          | .ok p =>
              match plansFor df d rest with
              | .error e => .error e
              | .ok ps => .ok (p :: ps)

/-- `src/features/missing_imputation.py: _resolve_fill_value` (lines
321-351).  `constant` returns the declared value; otherwise an all-null
column fails before any statistic is attempted; `median`/`mean` are
computed over the column's (numeric) non-null values (pandas raises on
non-numeric data there, modelled as an error), `most_frequent` is the first
mode; an unrecognized strategy fails last. -/
def resolveFill (col : Col) (strategy : String) (fv : Option Val) :
    Except String Cell :=
  if strategy = "constant" then .ok fv
  else
    let s := dropna col.cells
    if s.isEmpty then
      .error "Coluna esta 100 por cento nula. Use strategy constant com fill_value explicito."
    else if strategy = "median" ∨ strategy = "mean" then
      let nums := s.filterMap toNum?
      if nums.length ≠ s.length then .error "TypeError: estatistica sobre valores nao numericos."
      else
        match (if strategy = "median" then qMedian nums else qMean nums) with
        | some q => .ok (some (.num q))
        | none => .error "TypeError: estatistica indisponivel."
    else if strategy = "most_frequent" then
      match pandasMode s with
      | some v => .ok (some v)
      | none => .error "mode indisponivel."
    else .error "Strategy nao suportada."

/-- `series.fillna(v)`: replace nulls by `v` (a null `v` fills nothing,
mirroring that the constant path can in principle carry no value). -/
def fillna (cells : List Cell) (v : Cell) : List Cell :=
  match v with
  | none => cells
  | some u => cells.map (fun c => if c.isNone then some u else c)

/-- Per-column audit row of `_changes_row` (lines 354-386; the displayed
float rounding and percentage are presentational and kept exact here). -/
structure ImputeChangeRow where
  column : String
  dtype : Dtype
  kind : String
  strategy : String
  fill_value_used : Cell
  missing_before : Nat
  missing_after : Nat
  imputed : Nat
deriving DecidableEq, Repr

/-- The frame after one plan executes: `fillna` is applied only when the
column had missing values (`if missing_before > 0`). -/
def imputeStepFrame (df : DataFrame) (p : ColumnImputationPlan) (col : Col)
    (used : Cell) : DataFrame :=
  if col.cells.countP (fun c => c.isNone) > 0 then
    setCol df p.column ⟨col.dtype, fillna col.cells used⟩
  else df

/-- `missing_after` recount for one plan. -/
def missingAfter (df1 : DataFrame) (c : String) : Nat :=
  match getCol? df1 c with
  | some col1 => col1.cells.countP (fun x => x.isNone)
  | none => 0

/-- The execution loop of `_apply_imputation` (lines 288-307): resolve each
plan's fill value against the current state of the frame, fill where nulls
exist, and accumulate the audit rows and totals (total imputed cells,
number of affected columns). -/
def execPlans (df : DataFrame) :
    List ColumnImputationPlan →
    Except String (DataFrame × List ImputeChangeRow × Nat × Nat)
  | [] => .ok (df, [], 0, 0)
  | p :: rest =>
      match getCol? df p.column with
      | none => .error "KeyError"
      | some col =>
          match resolveFill col p.strategy p.fill_value with
          | .error e => .error e
          | .ok used =>
              match execPlans (imputeStepFrame df p col used) rest with
              | .error e => .error e
              | .ok (df2, rows, tot, aff) =>
                  .ok (df2,
                    ⟨p.column, p.dtype, p.kind, p.strategy, used,
                      col.cells.countP (fun c => c.isNone),
                      missingAfter (imputeStepFrame df p col used) p.column,
                      col.cells.countP (fun c => c.isNone)
                        - missingAfter (imputeStepFrame df p col used) p.column⟩ :: rows,
                    tot + (col.cells.countP (fun c => c.isNone)
                        - missingAfter (imputeStepFrame df p col used) p.column),
                    aff + (if 0 < col.cells.countP (fun c => c.isNone)
                        - missingAfter (imputeStepFrame df p col used) p.column
                      then 1 else 0))

/-- Aggregate execution metadata (`meta` dict of the source). -/
structure ImputeMeta where
  executed : Bool
  reason : String
  total_imputed_cells : Nat
  affected_columns : Nat
  scoped_cols_considered : List String
  excluded_cols_effective : List String
  target_preserved : Bool
deriving DecidableEq, Repr

/-- Payload of `run_missing_imputation` (the structural before/after
snapshot table is presentational and not modelled). -/
structure ImputePayload where
  df : DataFrame
  changes : List ImputeChangeRow
  meta : ImputeMeta
deriving DecidableEq, Repr

/-- `src/features/missing_imputation.py: _apply_imputation` (lines
225-318): resolve the column universe, refuse a (truthy) target inside it,
build all plans, then execute them. -/
def applyImputation (df : DataFrame) (scope : NormalizationScope)
    (d : ImputationDecision) : Except String ImputePayload :=
  let target := scope.target
  let resolved := scopedCols df scope d
  if target ≠ "" ∧ resolved.contains target then
    .error "Target nao pode ser imputado automaticamente."
  else
    match plansFor df d resolved with
    | .error e => .error e
    | .ok plans =>
        match execPlans df plans with
        | .error e => .error e
        | .ok (dfAfter, rows, tot, aff) =>
            .ok ⟨dfAfter, rows,
              ⟨true, "", tot, aff, resolved,
                (d.exclude_cols.filter (fun c => (colNames df).contains c)).insertionSort (· ≤ ·),
                true⟩⟩

/-- `src/features/missing_imputation.py: run_missing_imputation` (lines
96-172).  A missing scope short-circuits BEFORE any decision validation,
returning the input frame unchanged with `executed = false` and an
explanatory reason. -/
def run_missing_imputation (df : DataFrame) (scope : Option NormalizationScope)
    (d : ImputationDecision) : Except String ImputePayload :=
  match scope with
  | none =>
      .ok ⟨df, [],
        ⟨false,
          "scope ausente; imputacao nao executada para evitar inferencia silenciosa.",
          0, 0, [], [], true⟩⟩
  | some s =>
      match validateImpDecision d with
      | .error e => .error e
      | .ok _ => applyImputation df s d

-- ============================================================
-- Contract enforcement
-- (src/features/contract_and_candidates.py: enforce_contract_columns)
-- ============================================================

/-- `src/features/contract_and_candidates.py: ContractConformanceResult`
(the structural snapshots involve memory accounting and are not
modelled). -/
structure ContractConformanceResult where
  df : DataFrame
  contract_columns : List String
  kept_columns : List String
  missing_contract_columns : List String
  dropped_columns : List String
  scope : Option NormalizationScope
deriving DecidableEq, Repr

/-- `src/features/contract_and_candidates.py: enforce_contract_columns`
(lines 434-526): `missing` are the expected columns absent from the frame
(failing under `strict`), `kept` the expected columns present (in contract
order), `dropped` the frame columns not kept (sorted), and the returned
frame is the projection to `kept`. -/
def enforce_contract_columns (df : DataFrame) (contract_columns : List String)
    (strict : Bool) (scope : Option NormalizationScope) :
    Except String ContractConformanceResult :=
  let missing := contract_columns.filter (fun c => !((colNames df).contains c))
  if strict && !missing.isEmpty then
    .error "Conformidade ao contrato falhou (strict=True). Colunas ausentes."
  else
    let kept := contract_columns.filter (fun c => (colNames df).contains c)
    let dropped :=
      ((colNames df).filter (fun c => !(kept.contains c))).insertionSort (· ≤ ·)
    .ok ⟨selectCols df kept, contract_columns, kept, missing, dropped, scope⟩

-- ============================================================
-- Contract loader (src/data/contract_loader.py)
-- ============================================================

/-- The `schema` block of the contract YAML, as handed to the validation
core of `load_contract_yaml`: each field is present (`some`) or absent
(`none`).  File-path resolution and YAML parsing are I/O and not
modelled. -/
structure ContractSchema where
  target : Option String
  features : Option (List String)
  id_columns : Option (List String)
  drop_columns : Option (List String)
deriving DecidableEq, Repr

/-- `src/data/contract_loader.py: ContractConfig` (the `name`/`version`
bookkeeping fields carry no invariants and are not modelled). -/
structure ContractConfig where
  features : List String
  target : String
  id_columns : List String
  drop_columns : List String
deriving DecidableEq, Repr

/-- `ContractConfig.to_scope`. -/
def ContractConfig.to_scope (cfg : ContractConfig) : NormalizationScope :=
  ⟨cfg.features, cfg.target⟩

/-- `src/data/contract_loader.py: _as_str`: required non-empty string,
returned stripped. -/
def asStr (v : Option String) : Except String String :=
  match v with
  | none => .error "Campo obrigatorio ausente."
  | some s =>
      if pyStrip s = "" then .error "Campo deve ser uma string nao vazia."
      else .ok (pyStrip s)

/-- `src/data/contract_loader.py: _as_list_str`: optional/required list of
non-empty strings, each returned stripped. -/
def asListStr (v : Option (List String)) (allowEmpty : Bool) :
    Except String (List String) :=
  match v with
  | none =>
      if allowEmpty then .ok [] else .error "Campo obrigatorio ausente."
  | some l =>
      if l.any (fun s => pyStrip s = "") then
        .error "Item deve ser string nao vazia."
      else if !allowEmpty && l.isEmpty then .error "Campo nao pode ser vazio."
      else .ok (l.map pyStrip)

/-- The validation core of `src/data/contract_loader.py: load_contract_yaml`
(lines 104-196, after path resolution and YAML reading): parse target and
the three lists, dedupe preserving order, and reject a target that appears
inside `features`. -/
def load_contract (schema : ContractSchema) : Except String ContractConfig :=
  match asStr schema.target with
  | .error e => .error e
  | .ok target =>
  match asListStr schema.features false with
  | .error e => .error e
  | .ok features0 =>
  match asListStr schema.id_columns true with
  | .error e => .error e
  | .ok id0 =>
  match asListStr schema.drop_columns true with
  | .error e => .error e
  | .ok drop0 =>
  let features := dedupePreserveOrder features0
  if target ∈ features then
    .error "Contrato invalido: o target nao deve estar dentro de schema.features."
  else
    .ok ⟨features, target, dedupePreserveOrder id0, dedupePreserveOrder drop0⟩

-- ============================================================
-- Supervised representation (src/features/supervised_representation.py)
-- ============================================================

/-- A pandas Series: an optional name plus cells. -/
structure Series where
  name : Option String
  cells : List Cell
deriving DecidableEq, Repr

/-- The four-way split payload handed to
`run_supervised_representation` (field presence and container types of
`_unpack_split` are discharged by this embedding's types). -/
structure SplitData where
  X_train : DataFrame
  X_test : DataFrame
  y_train : Series
  y_test : Series
deriving DecidableEq, Repr

/-- The raw Section-6 `decision` dict: each leaf key possibly absent.  The
mapping values are typed as integers, which discharges the source's
"mapping values must be ints" check. -/
structure RepDecisionInput where
  x_cat_strategy : Option String
  x_cat_handle_unknown : Option String
  x_num_strategy : Option String
  y_strategy : Option String
  y_mapping : Option (List (Val × Int))
  y_dtype : Option String
deriving DecidableEq, Repr

/-- `src/features/supervised_representation.py: RepresentationDecision`
(the validated, normalized decision). -/
structure RepresentationDecision where
  x_cat_strategy : String
  x_cat_handle_unknown : String
  x_num_strategy : String
  y_strategy : String
  y_mapping : Option (List (Val × Int))
  y_dtype : String
deriving DecidableEq, Repr

/-- `src/features/supervised_representation.py:
_validate_and_normalize_decision` (lines 253-311): the v1 decision must fix
one-hot with ignored unknowns, a numeric strategy in
passthrough/standard_scaler, a y strategy in map_binary/passthrough, and a
non-empty integer mapping when mapping the target. -/
def validateRepDecision (d : RepDecisionInput) : Except String RepresentationDecision :=
  if d.x_cat_strategy ≠ some "onehot" then
    .error "categorical strategy deve ser onehot."
  else if d.x_cat_handle_unknown ≠ some "ignore" then
    .error "handle_unknown deve ser ignore."
  else if ¬ (d.x_num_strategy = some "passthrough"
      ∨ d.x_num_strategy = some "standard_scaler") then
    .error "numeric strategy deve ser passthrough ou standard_scaler."
  else if ¬ (d.y_strategy = some "map_binary" ∨ d.y_strategy = some "passthrough") then
    .error "y strategy deve ser map_binary ou passthrough."
  else if d.y_strategy = some "map_binary" ∧
      (d.y_mapping.getD []) = ([] : List (Val × Int)) then
    .error "mapping deve ser um dict nao vazio quando strategy e map_binary."
  else
    .ok ⟨"onehot", "ignore", d.x_num_strategy.getD "", d.y_strategy.getD "",
      (if d.y_strategy = some "map_binary" then d.y_mapping else none),
      d.y_dtype.getD "int64"⟩

/-- `src/features/supervised_representation.py:
_validate_scope_against_split` (lines 216-250): column alignment of both X
frames with `scope.features`, y names matching the target when present, and
X/y row-count parity. -/
def validateScopeAgainstSplit (sp : SplitData) (scope : NormalizationScope) :
    Except String Unit :=
  if colNames sp.X_train ≠ scope.features then
    .error "X_train nao esta alinhado ao scope.features."
  else if colNames sp.X_test ≠ scope.features then
    .error "X_test nao esta alinhado ao scope.features."
  else if (match sp.y_train.name with
      | some n => n != scope.target
      | none => false) then
    .error "y_train.name difere do scope.target."
  else if (match sp.y_test.name with
      | some n => n != scope.target
      | none => false) then
    .error "y_test.name difere do scope.target."
  else if nRows sp.X_train ≠ sp.y_train.cells.length then
    .error "X_train e y_train possuem tamanhos diferentes."
  else if nRows sp.X_test ≠ sp.y_test.cells.length then
    .error "X_test e y_test possuem tamanhos diferentes."
  else .ok ()

/-- `src/features/supervised_representation.py: _infer_column_roles` (lines
317-338): numeric iff numeric dtype and not bool; everything else (bool
included) is categorical.  Looks columns up in `X_train` (a missing column
would be a pandas KeyError; validation rules it out). -/
def inferColumnRolesAux (X_train : DataFrame) :
    List String → Except String (List String × List String)
  | [] => .ok ([], [])
  | c :: rest =>
      match getCol? X_train c with
      | none => .error "KeyError"
      | some col =>
          match inferColumnRolesAux X_train rest with
          | .error e => .error e
          | .ok (cats, nums) =>
              if col.dtype.isNumeric ∧ col.dtype ≠ .boolDt then
                .ok (cats, c :: nums)
              else .ok (c :: cats, nums)

/-- Role inference over the declared feature order. -/
def inferColumnRoles (X_train : DataFrame) (scope : NormalizationScope) :
    Except String (List String × List String) :=
  inferColumnRolesAux X_train scope.features

/-- The categories a fitted `OneHotEncoder` stores for one column: the
distinct non-null values sorted ascending, with the null category last when
nulls occur (sklearn treats NaN as a trailing category). -/
def categoriesOf (cells : List Cell) : List Cell :=
  ((dedupePreserveOrder (dropna cells)).insertionSort
      (fun a b => valLe a b = true)).map some
    ++ (if cells.any (fun c => c.isNone) then [none] else [])

/-- Per-column fitted state of a `StandardScaler`: `mean_` and (biased)
`var_`, as sklearn stores them. -/
structure FittedScalerStat where
  column : String
  mean : ℚ
  var : ℚ
deriving DecidableEq, Repr

/-- The numeric half of the fitted `ColumnTransformer`. -/
inductive NumBlock where
  | passthrough (cols : List String)
  | scaler (stats : List FittedScalerStat)
deriving DecidableEq, Repr

/-- The fitted `ColumnTransformer` of `_build_x_transformer` + `fit`: the
one-hot categories per categorical column (in role order) and the numeric
block. -/
structure FittedTransformer where
  catCols : Option (List (String × List Cell))
  numBlock : Option NumBlock
deriving DecidableEq, Repr

/-- Mean and biased variance of a column for `StandardScaler.fit`; sklearn
rejects NaNs and empty inputs (`check_array`), and the pipeline only feeds
numeric dtypes here, so non-numeric values are an error too. -/
def scalerStatsOf (name : String) (cells : List Cell) :
    Except String FittedScalerStat :=
  if cells.any (fun c => c.isNone) then
    .error "ValueError: input contains NaN."
  else
    let nums := (dropna cells).filterMap toNum?
    if nums.length ≠ cells.length then
      .error "ValueError: could not convert data to float."
    else if nums.length = 0 then
      .error "ValueError: 0 samples."
    else
      let mean := nums.sum / nums.length
      .ok ⟨name, mean, (nums.map (fun x => (x - mean) ^ 2)).sum / nums.length⟩

/-- The scaler-stat loop over numeric columns. -/
def scalerStats (X : DataFrame) : List String → Except String (List FittedScalerStat)
  | [] => .ok []
  | c :: rest =>
      match getCol? X c with
      | none => .error "KeyError"
      | some col =>
          match scalerStatsOf c col.cells with
          | .error e => .error e
          | .ok st =>
              match scalerStats X rest with
              | .error e => .error e
              | .ok sts => .ok (st :: sts)

/-- The one-hot category loop over categorical columns. -/
def onehotCats (X : DataFrame) : List String → Except String (List (String × List Cell))
  | [] => .ok []
  | c :: rest =>
      match getCol? X c with
      | none => .error "KeyError"
      | some col =>
          match onehotCats X rest with
          | .error e => .error e
          | .ok cs => .ok ((c, categoriesOf col.cells) :: cs)

/-- `_build_x_transformer` (lines 344-375) combined with
`transformer.fit(X_train)` (line 151): the cat block (when any categorical
column exists) and the num block (when any numeric column exists) are
fitted on the given frame; no columns at all is an error, exactly as the
source raises. -/
def fitTransformer (catColumns numColumns : List String)
    (dec : RepresentationDecision) (X : DataFrame) :
    Except String FittedTransformer :=
  if catColumns.isEmpty ∧ numColumns.isEmpty then
    .error "Nenhuma coluna disponivel para representacao em X."
  else
    match (if catColumns.isEmpty then .ok none
      else (onehotCats X catColumns).map some :
        Except String (Option (List (String × List Cell)))) with
    | .error e => .error e
    | .ok cats =>
        if numColumns.isEmpty then .ok ⟨cats, none⟩
        else if dec.x_num_strategy = "passthrough" then
          .ok ⟨cats, some (.passthrough numColumns)⟩
        else
          match scalerStats X numColumns with
          | .error e => .error e
          | .ok sts => .ok ⟨cats, some (.scaler sts)⟩

/-- A transformed cell: a plain number, or the symbolic standardized value
`(x - mean) / sqrt var` (irrational in general, hence kept symbolic). -/
inductive SVal where
  | raw (q : ℚ)
  | standardized (x mean var : ℚ)
deriving DecidableEq, Repr

/-- The transformed frame (`_transform_to_dataframe` output): named float
columns. -/
abbrev RFrame := List (String × List (Option SVal))

/-- Feature-name rendering of `get_feature_names_out` with
`verbose_feature_names_out=True`. -/
def onehotFeatureName (c : String) (cat : Cell) : String :=
  "cat_onehot__" ++ c ++ "_" ++ (match cat with
    | some v => valToStr v
    | none => "nan")

/-- One-hot encode one column against its fitted categories: indicator per
category, zeros everywhere for an unseen value (`handle_unknown =
"ignore"`). -/
def onehotEncodeCol (c : String) (cats : List Cell) (cells : List Cell) : RFrame :=
  cats.map (fun k =>
    (onehotFeatureName c k,
      cells.map (fun cell => some (SVal.raw (if cell = k then 1 else 0)))))

/-- Transform via the fitted transformer (`transformer.transform`, as
wrapped by `_transform_to_dataframe`, lines 378-386): the cat block's
one-hot columns, then the numeric block (passthrough copies values; the
scaler standardizes and, like sklearn, rejects NaN and non-numeric
values). -/
def transformX (t : FittedTransformer) (X : DataFrame) : Except String RFrame :=
  let catPart : Except String RFrame :=
    match t.catCols with
    | none => .ok []
    | some ccs =>
        ccs.foldr (fun (p : String × List Cell) acc =>
          match acc with
          | .error e => .error e
          | .ok rest =>
              match getCol? X p.1 with
              | none => .error "KeyError"
              | some col => .ok (onehotEncodeCol p.1 p.2 col.cells ++ rest)) (.ok [])
  match catPart with
  | .error e => .error e
  | .ok catCols =>
      match t.numBlock with
      | none => .ok catCols
      | some (.passthrough cols) =>
          let numPart : Except String RFrame :=
            cols.foldr (fun c acc =>
              match acc with
              | .error e => .error e
              | .ok rest =>
                  match getCol? X c with
                  | none => .error "KeyError"
                  | some col =>
                      .ok (("num__" ++ c,
                        col.cells.map (fun cell =>
                          cell.bind (fun v => (toNum? v).map SVal.raw))) :: rest))
              (.ok [])
          match numPart with
          | .error e => .error e
          | .ok numCols => .ok (catCols ++ numCols)
      | some (.scaler sts) =>
          let numPart : Except String RFrame :=
            sts.foldr (fun st acc =>
              match acc with
              | .error e => .error e
              | .ok rest =>
                  match getCol? X st.column with
                  | none => .error "KeyError"
                  | some col =>
                      if col.cells.any (fun c => c.isNone) then
                        .error "ValueError: input contains NaN."
                      else
                        .ok (("num_scaler__" ++ st.column,
                          col.cells.map (fun cell =>
                            cell.bind (fun v => (toNum? v).map
                              (fun x => SVal.standardized x st.mean st.var)))) :: rest))
              (.ok [])
          match numPart with
          | .error e => .error e
          | .ok numCols => .ok (catCols ++ numCols)

/-- Represented target values: raw cells (passthrough) or mapped integers
(`astype("int64")` forbids nulls; other dtype strings keep the optional
integers, standing in for pandas' laxer casts). -/
inductive YRepr where
  | cells (l : List Cell)
  | ints (l : List Int)
  | optInts (l : List (Option Int))
deriving DecidableEq, Repr

/-- Mapping lookup for one target value. -/
def lookupVal (m : List (Val × Int)) (v : Val) : Option Int := m.lookup v

/-- `series.astype(dtype)` on the mapped target: `int64` (the source's
default) raises on nulls (pandas cannot cast NaN to int). -/
def astypeY (dtype : String) (l : List (Option Int)) : Except String YRepr :=
  if dtype = "int64" then
    if l.any (fun c => c.isNone) then
      .error "IntCastingNaNError: cannot convert NaN to int64."
    else .ok (.ints (l.filterMap id))
  else .ok (.optInts l)

/-- `src/features/supervised_representation.py: _represent_target` (lines
392-417): passthrough copies y; map_binary collects the distinct non-null
values across train+test (`pd.concat(...).dropna().unique()`), fails when
any is absent from the mapping, then maps both series and casts. -/
def representTarget (y_train y_test : Series) (dec : RepresentationDecision) :
    Except String (YRepr × YRepr × Option (List (Val × Int))) :=
  if dec.y_strategy = "passthrough" then
    .ok (.cells y_train.cells, .cells y_test.cells, none)
  else if dec.y_strategy ≠ "map_binary" then
    .error "Estrategia de y invalida."
  else
    match dec.y_mapping with
    | none => .error "Estrategia de y invalida (esperado map_binary com mapping)."
    | some mapping =>
        let seen := dedupePreserveOrder (dropna (y_train.cells ++ y_test.cells))
        if (seen.filter (fun v => (lookupVal mapping v).isNone)) ≠ [] then
          .error "mapping nao cobre todos os valores observados no target."
        else
          match astypeY dec.y_dtype
              (y_train.cells.map (fun c => c.bind (lookupVal mapping))) with
          | .error e => .error e
          | .ok ytr =>
              match astypeY dec.y_dtype
                  (y_test.cells.map (fun c => c.bind (lookupVal mapping))) with
              | .error e => .error e
              | .ok yte => .ok (ytr, yte, some mapping)

/-- The `representation` payload of `run_supervised_representation`
(diagnostics are derived measurements over these fields and are not
re-modelled). -/
structure RepresentationPayload where
  X_train_repr : RFrame
  X_test_repr : RFrame
  y_train_repr : YRepr
  y_test_repr : YRepr
  feature_names : List String
  transformer : FittedTransformer
  target_mapping : Option (List (Val × Int))
deriving DecidableEq, Repr

/-- `src/features/supervised_representation.py:
run_supervised_representation` (lines 97-191): validate the split against
the scope, validate/normalize the decision, infer column roles from
`X_train`, build and fit the transformer on `X_train` ONLY, transform both
partitions with that same fitted transformer, and represent the target. -/
def run_supervised_representation (split : SplitData) (scope : NormalizationScope)
    (d : RepDecisionInput) : Except String RepresentationPayload :=
  match validateScopeAgainstSplit split scope with
  | .error e => .error e
  | .ok _ =>
  match validateRepDecision d with
  | .error e => .error e
  | .ok dec =>
  match inferColumnRoles split.X_train scope with
  | .error e => .error e
  | .ok (catColumns, numColumns) =>
  match fitTransformer catColumns numColumns dec split.X_train with
  | .error e => .error e
  | .ok t =>
  match transformX t split.X_train with
  | .error e => .error e
  | .ok xtr =>
  match transformX t split.X_test with
  | .error e => .error e
  | .ok xte =>
  match representTarget split.y_train split.y_test dec with
  | .error e => .error e
  | .ok (ytr, yte, tm) =>
      .ok ⟨xtr, xte, ytr, yte, xtr.map Prod.fst, t, tm⟩

-- ============================================================
-- Train/test split preparation
-- (src/features/train_test_split_prep.py)
-- ============================================================

/-- Python `test_size`: a float in the unit interval or an absolute count
(the `isinstance` type checks of the source become this sum type). -/
inductive TestSize where
  | frac (q : ℚ)
  | count (n : Int)
deriving DecidableEq, Repr

/-- The Section-5 split `decision`: required keys are typed fields,
`stratify_col` possibly absent, the optional audit flag kept for
completeness. -/
structure SplitDecision where
  test_size : TestSize
  random_state : Int
  shuffle : Bool
  stratify : Bool
  stratify_col : Option String
  audit_categorical_cardinality : Option Bool
deriving DecidableEq, Repr

/-- `src/features/train_test_split_prep.py: _validate_scope` (lines
314-357): non-empty target, all features present, target present, target
not among the features (the `isinstance` checks are discharged by this
embedding's types). -/
def validateSplitScope (df : DataFrame) (scope : NormalizationScope) :
    Except String Unit :=
  if pyStrip scope.target = "" then
    .error "scope.target deve ser uma string nao vazia."
  else if (scope.features.filter (fun c => !((colNames df).contains c))) ≠ [] then
    .error "scope.features contem colunas ausentes no df."
  else if ¬ ((colNames df).contains scope.target = true) then
    .error "Target nao existe no df."
  else if scope.target ∈ scope.features then
    .error "Target nao pode constar em scope.features."
  else .ok ()

/-- `src/features/train_test_split_prep.py: _validate_decision` (lines
456-565): test-size domain, and the stratification consistency rules —
`stratify_col` mandatory and equal to the target when `stratify` is true,
forbidden when it is false. -/
def validateSplitDecision (d : SplitDecision) (scope : NormalizationScope) :
    Except String Unit :=
  match (match d.test_size with
    | .frac q =>
        if 0 < q ∧ q < 1 then Except.ok ()
        else Except.error "Se float, test_size deve estar entre 0 e 1 exclusivo."
    | .count n =>
        if 1 ≤ n then Except.ok ()
        else Except.error "Se int, test_size deve ser maior ou igual a 1.") with
  | .error e => .error e
  | .ok _ =>
      if d.stratify then
        match d.stratify_col with
        | none => .error "stratify_col e obrigatorio quando stratify e verdadeiro."
        | some sc0 =>
            if pyStrip sc0 = "" then
              .error "stratify_col deve ser uma string nao vazia."
            else if sc0 ≠ scope.target then
              .error "stratify_col deve ser igual ao scope.target."
            else .ok ()
      else
        if d.stratify_col.isSome then
          .error "stratify_col nao deve ser fornecido quando stratify e falso."
        else .ok ()

/-- The exact argument tuple the source passes to
`sklearn.model_selection.train_test_split` (lines 711-726): the X/y
separation of `_split_X_y`, the three declared scalars, and the optional
stratification series (`df.loc[:, stratify_col]`, which validation pins to
the target column). -/
structure SplitCall where
  X : DataFrame
  y : List Cell
  test_size : TestSize
  random_state : Int
  shuffle : Bool
  stratify : Option (List Cell)
deriving DecidableEq, Repr

/-- The quadruple returned by the external split routine. -/
structure SplitResult where
  X_train : DataFrame
  X_test : DataFrame
  y_train : List Cell
  y_test : List Cell
deriving DecidableEq, Repr

/-- `_split_X_y` + the stratify-series resolution of
`run_train_test_split` (lines 393-400), packaged as the one external call:
every argument is a pure function of `(df, scope, decision)`. -/
def splitCallOf (df : DataFrame) (scope : NormalizationScope)
    (d : SplitDecision) : SplitCall :=
  { X := selectCols df scope.features
    y := ((getCol? df scope.target).map Col.cells).getD []
    test_size := d.test_size
    random_state := d.random_state
    shuffle := d.shuffle
    stratify :=
      if d.stratify then
        some (((getCol? df (d.stratify_col.getD scope.target)).map Col.cells).getD [])
      else none }

/-- `_build_shapes` (lines 732-814). -/
structure SplitShapes where
  x_train_rows : Nat
  x_train_cols : Nat
  x_test_rows : Nat
  x_test_cols : Nat
  y_train_rows : Nat
  y_test_rows : Nat
  n_features : Nat
deriving DecidableEq, Repr

/-- The minimum class rate of `_build_risk_checks._min_class_rate`
(`value_counts(dropna=False)` over the series, divided by its length). -/
def minClassRate (cells : List Cell) : ℚ :=
  if cells.length = 0 then 0
  else
    match (dedupePreserveOrder cells).map
        (fun v => (cells.count v : ℚ) / cells.length) with
    | [] => 0
    | x :: xs => xs.foldl min x

/-- `_build_risk_checks` (lines 921-1037): scope-integrity booleans and the
three minimum class rates. -/
structure RiskChecks where
  target_in_X_train : Bool
  target_in_X_test : Bool
  columns_match_scope_train : Bool
  columns_match_scope_test : Bool
  min_class_rate_all : ℚ
  min_class_rate_train : ℚ
  min_class_rate_test : ℚ
deriving DecidableEq, Repr

/-- Payload of `run_train_test_split` (lines 378-452).  The
`target_distribution` table and the optional categorical-cardinality audit
are further pure measurements of these same partitions and are not
re-modelled. -/
structure SplitPayload where
  df : DataFrame
  X_train : DataFrame
  X_test : DataFrame
  y_train : List Cell
  y_test : List Cell
  shapes : SplitShapes
  risk_checks : RiskChecks
deriving DecidableEq, Repr

/-- `src/features/train_test_split_prep.py: run_train_test_split` (lines
378-452), parameterized by the external `train_test_split` routine `tts`
(scikit-learn; with an integer `random_state` it is a pure function of its
arguments, which is how it is modelled): validate scope and decision, then
delegate the partitioning to `tts` at exactly the declared arguments and
assemble the payload and diagnostics from its result. -/
def run_train_test_split (tts : SplitCall → SplitResult) (df : DataFrame)
    (scope : NormalizationScope) (d : SplitDecision) :
    Except String SplitPayload :=
  match validateSplitScope df scope with
  | .error e => .error e
  | .ok _ =>
  match validateSplitDecision d scope with
  | .error e => .error e
  | .ok _ =>
      let r := tts (splitCallOf df scope d)
      .ok
        { df := df
          X_train := r.X_train
          X_test := r.X_test
          y_train := r.y_train
          y_test := r.y_test
          shapes :=
            { x_train_rows := nRows r.X_train
              x_train_cols := r.X_train.length
              x_test_rows := nRows r.X_test
              x_test_cols := r.X_test.length
              y_train_rows := r.y_train.length
              y_test_rows := r.y_test.length
              n_features := scope.features.length }
          risk_checks :=
            { target_in_X_train := (colNames r.X_train).contains scope.target
              target_in_X_test := (colNames r.X_test).contains scope.target
              columns_match_scope_train := colNames r.X_train == scope.features
              columns_match_scope_test := colNames r.X_test == scope.features
              min_class_rate_all := minClassRate (r.y_train ++ r.y_test)
              min_class_rate_train := minClassRate r.y_train
              min_class_rate_test := minClassRate r.y_test } }

/-- Row extraction by index list. -/
def cellsAt (cells : List Cell) (idxs : List Nat) : List Cell :=
  idxs.filterMap (fun i => cells.get? i)

/-- Row selection on every column of a frame. -/
def selectRows (df : DataFrame) (idxs : List Nat) : DataFrame :=
  df.map (fun p => (p.1, ⟨p.2.dtype, cellsAt p.2.cells idxs⟩))

/-- The number of test rows (`ceil(test_size * n)` for a fraction, the
count itself otherwise, clamped to the population). -/
def nTestOf (ts : TestSize) (n : Nat) : Nat :=
  match ts with
  | .frac q => Nat.ceil (q * n)
  | .count k => min k.toNat n

/-- A concrete deterministic model of
`sklearn.model_selection.train_test_split` used to instantiate the oracle
in examples: without shuffling the first rows train and the last rows test
(sklearn's contiguous split); with shuffling a permutation fully
determined by `random_state` (modelled here as a seed-indexed rotation —
the numpy PRNG itself is outside the repository). -/
def modelSplit (c : SplitCall) : SplitResult :=
  let n := c.y.length
  let nt := nTestOf c.test_size n
  let idx := List.range n
  if c.shuffle then
    let k := (c.random_state.natAbs + 1) % (n + 1)
    let perm := idx.drop k ++ idx.take k
    { X_train := selectRows c.X (perm.drop nt)
      X_test := selectRows c.X (perm.take nt)
      y_train := cellsAt c.y (perm.drop nt)
      y_test := cellsAt c.y (perm.take nt) }
  else
    { X_train := selectRows c.X (idx.take (n - nt))
      X_test := selectRows c.X (idx.drop (n - nt))
      y_train := cellsAt c.y (idx.take (n - nt))
      y_test := cellsAt c.y (idx.drop (n - nt)) }

/-- A second oracle that disagrees with `modelSplit` away from unshuffled
calls (used by the C7 witness to show only the declared call matters). -/
def modelSplitB (c : SplitCall) : SplitResult :=
  if c.shuffle then ⟨[], [], [], []⟩ else modelSplit c

-- ============================================================
-- Frame lemmas for standardization
-- ============================================================

theorem getCol?_setCol_ne (df : DataFrame) (c c' : String) (col : Col) (h : c' ≠ c) :
    getCol? (setCol df c col) c' = getCol? df c' := by
  induction df with
  | nil => rfl
  | cons hd tl ih =>
      show getCol? ((if hd.1 = c then (hd.1, col) else hd) :: setCol tl c col) c'
            = getCol? (hd :: tl) c'
      unfold getCol?
      by_cases hm : hd.1 = c'
      · have hc : ¬ hd.1 = c := fun hcc => h (hm ▸ hcc ▸ rfl)
        rw [if_neg hc, List.find?_cons_of_pos _ (by simpa using hm),
          List.find?_cons_of_pos _ (by simpa using hm)]
      · by_cases hc : hd.1 = c
        · rw [if_pos hc, List.find?_cons_of_neg _ (by simpa using hm),
            List.find?_cons_of_neg _ (by simpa using hm)]
          exact ih
        · rw [if_neg hc, List.find?_cons_of_neg _ (by simpa using hm),
            List.find?_cons_of_neg _ (by simpa using hm)]
          exact ih

theorem colNames_setCol (df : DataFrame) (c : String) (col : Col) :
    colNames (setCol df c col) = colNames df := by
  induction df with
  | nil => rfl
  | cons hd tl ih =>
      show colNames ((if hd.1 = c then (hd.1, col) else hd) :: setCol tl c col)
            = colNames (hd :: tl)
      unfold colNames
      rw [List.map_cons, List.map_cons]
      by_cases hc : hd.1 = c
      · rw [if_pos hc]
        exact congrArg (hd.1 :: ·) ih
      · rw [if_neg hc]
        exact congrArg (hd.1 :: ·) ih

theorem stdStep_getCol?_ne (pm : List (String × String)) (df : DataFrame)
    (c c' : String) (h : c' ≠ c) :
    getCol? (stdStep pm df c).1 c' = getCol? df c' := by
  unfold stdStep
  cases hcol : getCol? df c with
  | none => rfl
  | some col => simpa using getCol?_setCol_ne df c c' _ h

theorem stdStep_colNames (pm : List (String × String)) (df : DataFrame) (c : String) :
    colNames (stdStep pm df c).1 = colNames df := by
  unfold stdStep
  cases hcol : getCol? df c with
  | none => rfl
  | some col => simpa using colNames_setCol df c _

theorem stdFold_fst (pm : List (String × String)) (df : DataFrame) (c : String)
    (rest : List String) :
    (stdFold pm df (c :: rest)).1 = (stdFold pm (stdStep pm df c).1 rest).1 := by
  simp only [stdFold]

theorem stdFold_getCol?_not_mem (pm : List (String × String)) (cols : List String) :
    ∀ (df : DataFrame) (c' : String), c' ∉ cols →
      getCol? (stdFold pm df cols).1 c' = getCol? df c' := by
  induction cols with
  | nil => intro df c' _; rfl
  | cons c rest ih =>
      intro df c' h
      rw [stdFold_fst, ih _ _ (fun hm => h (List.mem_cons_of_mem _ hm))]
      exact stdStep_getCol?_ne pm df c c' (fun he => h (he ▸ List.mem_cons_self _ _))

theorem stdFold_colNames (pm : List (String × String)) (cols : List String) :
    ∀ df : DataFrame, colNames (stdFold pm df cols).1 = colNames df := by
  induction cols with
  | nil => intro df; rfl
  | cons c rest ih =>
      intro df
      rw [stdFold_fst, ih, stdStep_colNames]

-- ============================================================
-- C5 / C6
-- ============================================================

/-- C5 (amended): every column outside the executed scope is byte-identical
to the input (and the column list is unchanged); the target column is
untouched provided the scope's `features` are non-empty (so that the
`features` restriction is actually applied — the source treats an empty
feature list as falsy and drops the restriction) and the target is not
listed among the features. -/
theorem standardization_scope_containment (df : DataFrame)
    (scope : Option NormalizationScope) (pm : List (String × String))
    (cs : List String) :
    colNames (run_categorical_standardization df scope pm cs).df = colNames df ∧
    (∀ c, c ∉ (run_categorical_standardization df scope pm cs).scoped_cols →
      getCol? (run_categorical_standardization df scope pm cs).df c = getCol? df c) ∧
    (∀ s, scope = some s → s.features ≠ [] → s.target ∉ s.features →
      getCol? (run_categorical_standardization df scope pm cs).df s.target
        = getCol? df s.target) := by
  refine ⟨?_, ?_, ?_⟩
  · simp only [run_categorical_standardization, apply_service_phrase_standardization]
    exact stdFold_colNames pm _ df
  · intro c hc
    simp only [run_categorical_standardization, apply_service_phrase_standardization] at hc ⊢
    exact stdFold_getCol?_not_mem pm _ df c hc
  · intro s hs hne hnot
    subst hs
    simp only [run_categorical_standardization, apply_service_phrase_standardization,
      if_pos hne, ne_eq]
    apply stdFold_getCol?_not_mem
    intro hmem
    rcases List.mem_filter.mp hmem with ⟨_, hfs⟩
    exact hnot (by simpa using hfs)

/-- C5 witness: a concrete run where the target is outside the executed
scope and stays byte-identical while an in-scope column is normalized. -/
theorem standardization_scope_containment_witness :
    getCol? (run_categorical_standardization
        [("a", ⟨Dtype.object, [some (Val.str " X ")]⟩),
         ("T", ⟨Dtype.object, [some (Val.str "Yes ")]⟩)]
        (some ⟨["a"], "T"⟩) [] ["a", "T"]).df "T"
      = some ⟨Dtype.object, [some (Val.str "Yes ")]⟩ :=
  ((standardization_scope_containment
      [("a", ⟨Dtype.object, [some (Val.str " X ")]⟩),
       ("T", ⟨Dtype.object, [some (Val.str "Yes ")]⟩)]
      (some ⟨["a"], "T"⟩) [] ["a", "T"]).2.2 ⟨["a"], "T"⟩ rfl
      (by decide) (by decide)).trans (by decide)

/-- C5 counterexample: with a scope whose `features` list is empty (which
the unvalidated `NormalizationScope` admits), the `features` restriction is
dropped and the target column named in the scope IS rewritten — refuting
"never changes the target column, for every input table, phrase map and
column scope". -/
theorem standardization_target_mutated_on_unvalidated_scope :
    getCol? (run_categorical_standardization
        [("T", ⟨Dtype.object, [some (Val.str "Yes ")]⟩)]
        (some ⟨[], "T"⟩) [] ["T"]).df "T"
      = some ⟨Dtype.object, [some (Val.str "yes")]⟩ ∧
    (some (⟨Dtype.object, [some (Val.str "yes")]⟩ : Col)
      ≠ some (⟨Dtype.object, [some (Val.str "Yes ")]⟩ : Col)) := by
  constructor
  · decide
  · decide

/-- C6: the source normalizes the phrase-map keys/values only for the
`rules` audit table, but applies the RAW `phrase_map` to the normalized
cells — so a key that differs from its normalized form never matches.  At
the failing input the audited rule is the normalized
`"no internet service" -> "no"`, yet the matching cell is left unchanged
(the claim and the function's own docstring say it becomes `"no"`). -/
theorem phrase_map_keys_applied_raw :
    (apply_service_phrase_standardization
        [("svc", ⟨Dtype.object, [some (Val.str "no internet service")]⟩)]
        [("No Internet Service", "no")] ["svc"] none).rules
      = [⟨"no internet service", "no"⟩] ∧
    getCol? (apply_service_phrase_standardization
        [("svc", ⟨Dtype.object, [some (Val.str "no internet service")]⟩)]
        [("No Internet Service", "no")] ["svc"] none).df "svc"
      = some ⟨Dtype.object, [some (Val.str "no internet service")]⟩ := by
  constructor
  · decide
  · decide

-- ============================================================
-- Imputation lemmas
-- ============================================================

theorem planFor_column (d : ImputationDecision) (name : String) (col : Col)
    (p : ColumnImputationPlan) (h : planFor d name col = .ok p) :
    p.column = name := by
  unfold planFor at h
  cases hpsf : planStrategyFill d name col with
  | error e => rw [hpsf] at h; exact absurd h (by simp)
  | ok sf =>
      rw [hpsf] at h
      cases sf with
      | mk st fv =>
          dsimp only at h
          have h1 := (Except.ok.injEq _ _).mp h
          rw [← h1]

theorem plansFor_columns (df : DataFrame) (d : ImputationDecision) :
    ∀ (cols : List String) (ps : List ColumnImputationPlan),
      plansFor df d cols = .ok ps → ps.map (fun p => p.column) = cols := by
  intro cols
  induction cols with
  | nil => intro ps h; cases h; rfl
  | cons c rest ih =>
      intro ps h
      unfold plansFor at h
      cases hg : getCol? df c with
      | none => rw [hg] at h; exact absurd h (by simp)
      | some col =>
          rw [hg] at h
          dsimp only at h
          cases hp : planFor d c col with
          | error e => rw [hp] at h; exact absurd h (by simp)
          | ok p0 =>
              rw [hp] at h
              dsimp only at h
              cases hr : plansFor df d rest with
              | error e => rw [hr] at h; exact absurd h (by simp)
              | ok ps' =>
                  rw [hr] at h
                  dsimp only at h
                  have h1 := (Except.ok.injEq _ _).mp h
                  rw [← h1, List.map_cons, planFor_column d c col p0 hp, ih ps' hr]

theorem plansFor_plan_unique (df : DataFrame) (d : ImputationDecision) :
    ∀ (cols : List String) (ps : List ColumnImputationPlan),
      plansFor df d cols = .ok ps →
      ∀ p ∈ ps, ∀ col, getCol? df p.column = some col → planFor d p.column col = .ok p := by
  intro cols
  induction cols with
  | nil => intro ps h p hp; cases h; cases hp
  | cons c rest ih =>
      intro ps h p hp col hcol
      unfold plansFor at h
      cases hg : getCol? df c with
      | none => rw [hg] at h; exact absurd h (by simp)
      | some col0 =>
          rw [hg] at h
          dsimp only at h
          cases hp0 : planFor d c col0 with
          | error e => rw [hp0] at h; exact absurd h (by simp)
          | ok p0 =>
              rw [hp0] at h
              dsimp only at h
              cases hr : plansFor df d rest with
              | error e => rw [hr] at h; exact absurd h (by simp)
              | ok ps' =>
                  rw [hr] at h
                  dsimp only at h
                  have h1 := (Except.ok.injEq _ _).mp h
                  rw [← h1] at hp
                  rcases List.mem_cons.mp hp with hpe | hpm
                  · subst hpe
                    have hcc : p.column = c := planFor_column d c col0 p hp0
                    rw [hcc] at hcol
                    rw [hg] at hcol
                    have h2 : col0 = col := (Option.some.injEq _ _).mp hcol
                    rw [hcc, ← h2]
                    exact hp0
                  · exact ih ps' hr p hpm col hcol

theorem imputeStepFrame_getCol?_ne (df : DataFrame) (p : ColumnImputationPlan)
    (col : Col) (used : Cell) (t : String) (h : p.column ≠ t) :
    getCol? (imputeStepFrame df p col used) t = getCol? df t := by
  unfold imputeStepFrame
  by_cases hmb : col.cells.countP (fun c => c.isNone) > 0
  · rw [if_pos hmb]
    exact getCol?_setCol_ne df p.column t _ (fun he => h he.symm)
  · rw [if_neg hmb]

theorem execPlans_preserves (t : String) :
    ∀ (plans : List ColumnImputationPlan) (df : DataFrame)
      (res : DataFrame × List ImputeChangeRow × Nat × Nat),
      (∀ p ∈ plans, p.column ≠ t) → execPlans df plans = .ok res →
      getCol? res.1 t = getCol? df t := by
  intro plans
  induction plans with
  | nil =>
      intro df res _ h
      have h1 := (Except.ok.injEq _ _).mp h
      rw [← h1]
  | cons p rest ih =>
      intro df res hall h
      unfold execPlans at h
      cases hg : getCol? df p.column with
      | none => rw [hg] at h; exact absurd h (by simp)
      | some col =>
          rw [hg] at h
          dsimp only at h
          cases hrf : resolveFill col p.strategy p.fill_value with
          | error e => rw [hrf] at h; exact absurd h (by simp)
          | ok used =>
              rw [hrf] at h
              dsimp only at h
              cases hrec : execPlans (imputeStepFrame df p col used) rest with
              | error e => rw [hrec] at h; exact absurd h (by simp)
              | ok r =>
                  rw [hrec] at h
                  dsimp only at h
                  obtain ⟨df2, rows, tot, aff⟩ := r
                  have h1 := (Except.ok.injEq _ _).mp h
                  have hfst : res.1 = df2 := by rw [← h1]
                  rw [hfst]
                  have h2 := ih _ (df2, rows, tot, aff)
                    (fun q hq => hall q (List.mem_cons_of_mem _ hq)) hrec
                  rw [h2]
                  exact imputeStepFrame_getCol?_ne df p col used t
                    (hall p (List.mem_cons_self _ _))

theorem execPlans_allnull_error (c : String) (col : Col)
    (hnull : dropna col.cells = []) :
    ∀ (plans : List ColumnImputationPlan) (df : DataFrame),
      getCol? df c = some col →
      (∃ p ∈ plans, p.column = c) →
      (∀ p ∈ plans, p.column = c → p.strategy ≠ "constant") →
      (execPlans df plans).isOk = false := by
  intro plans
  induction plans with
  | nil =>
      intro df _ hex _
      rcases hex with ⟨p, hp, _⟩
      cases hp
  | cons p rest ih =>
      intro df hcol hex hall
      unfold execPlans
      by_cases hpc : p.column = c
      · rw [hpc, hcol]
        dsimp only
        have hstrat : p.strategy ≠ "constant" := hall p (List.mem_cons_self _ _) hpc
        have hres : resolveFill col p.strategy p.fill_value = .error
            "Coluna esta 100 por cento nula. Use strategy constant com fill_value explicito." := by
          unfold resolveFill
          rw [if_neg hstrat, hnull]
          rfl
        rw [hres]
        rfl
      · cases hgc : getCol? df p.column with
        | none => rfl
        | some col0 =>
            dsimp only
            cases hrf : resolveFill col0 p.strategy p.fill_value with
            | error e => rfl
            | ok used =>
                dsimp only
                have hex' : ∃ q ∈ rest, q.column = c := by
                  rcases hex with ⟨q, hq, hqc⟩
                  rcases List.mem_cons.mp hq with hqe | hqm
                  · exact absurd (hqe ▸ hqc) hpc
                  · exact ⟨q, hqm, hqc⟩
                have hall' : ∀ q ∈ rest, q.column = c → q.strategy ≠ "constant" :=
                  fun q hq => hall q (List.mem_cons_of_mem _ hq)
                have hpr : getCol? (imputeStepFrame df p col0 used) c = some col := by
                  rw [imputeStepFrame_getCol?_ne df p col0 used c hpc]
                  exact hcol
                have hih := ih _ hpr hex' hall'
                cases hrec : execPlans (imputeStepFrame df p col0 used) rest with
                | error e => rfl
                | ok r => rw [hrec] at hih; exact Bool.noConfusion hih

theorem validateImpDecision_ok (d : ImputationDecision)
    (h : validateImpDecision d = .ok ()) :
    ∃ ns cs, d.numeric_strategy = some ns ∧ d.categorical_strategy = some cs ∧
      (ns = "median" ∨ ns = "mean" ∨ ns = "constant") ∧
      (cs = "most_frequent" ∨ cs = "constant") ∧
      (ns = "constant" → d.numeric_fill_value.isSome = true) ∧
      (cs = "constant" → d.categorical_fill_value.isSome = true) := by
  unfold validateImpDecision at h
  by_cases h1 : (d.numeric_strategy.isNone || d.categorical_strategy.isNone) = true
  · rw [if_pos h1] at h
    exact absurd h (by simp)
  · rw [if_neg h1] at h
    rw [Bool.or_eq_true, not_or] at h1
    obtain ⟨hn, hc⟩ := h1
    rcases Option.isSome_iff_exists.mp (by
      cases hns' : d.numeric_strategy.isNone
      · simpa using hns'
      · exact absurd hns' hn) with ⟨ns, hnseq⟩
    rcases Option.isSome_iff_exists.mp (by
      cases hcs' : d.categorical_strategy.isNone
      · simpa using hcs'
      · exact absurd hcs' hc) with ⟨cs, hcseq⟩
    rw [hnseq, hcseq, Option.getD_some, Option.getD_some] at h
    by_cases h2 : ¬ (ns = "median" ∨ ns = "mean" ∨ ns = "constant")
    · rw [if_pos h2] at h
      exact absurd h (by simp)
    · rw [if_neg h2] at h
      by_cases h3 : ¬ (cs = "most_frequent" ∨ cs = "constant")
      · rw [if_pos h3] at h
        exact absurd h (by simp)
      · rw [if_neg h3] at h
        by_cases h4 : (ns = "constant" ∧ d.numeric_fill_value.isNone = true)
        · rw [if_pos h4] at h
          exact absurd h (by simp)
        · rw [if_neg h4] at h
          by_cases h5 : (cs = "constant" ∧ d.categorical_fill_value.isNone = true)
          · rw [if_pos h5] at h
            exact absurd h (by simp)
          · refine ⟨ns, cs, hnseq, hcseq, not_not.mp h2, not_not.mp h3, ?_, ?_⟩
            · intro he
              cases hfv : d.numeric_fill_value.isNone
              · simpa using hfv
              · exact absurd ⟨he, hfv⟩ h4
            · intro he
              cases hfv : d.categorical_fill_value.isNone
              · simpa using hfv
              · exact absurd ⟨he, hfv⟩ h5

theorem baseFill_isSome (d : ImputationDecision) (col : Col)
    (hv : validateImpDecision d = .ok ())
    (hb : baseStrategy d col = "constant") : (baseFill d col).isSome = true := by
  rcases validateImpDecision_ok d hv with ⟨ns, cs, hnseq, hcseq, _, _, hnf, hcf⟩
  unfold baseFill
  by_cases hdn : col.dtype.isNumeric = true
  · rw [if_pos hdn, if_pos hb]
    unfold baseStrategy at hb
    rw [if_pos hdn, hnseq, Option.getD_some] at hb
    exact hnf hb
  · rw [if_neg hdn, if_pos hb]
    unfold baseStrategy at hb
    rw [if_neg hdn, hcseq, Option.getD_some] at hb
    exact hcf hb

theorem planStrategyFill_constant (d : ImputationDecision) (name : String)
    (col : Col) (st : String) (fv : Option Val)
    (h : planStrategyFill d name col = .ok (st, fv)) (hst : st = "constant")
    (hv : validateImpDecision d = .ok ()) : fv.isSome = true := by
  unfold planStrategyFill at h
  cases hlk : d.per_column.lookup name with
  | none =>
      rw [hlk] at h
      dsimp only at h
      have h1 := (Except.ok.injEq _ _).mp h
      have hstb : baseStrategy d col = st := congrArg Prod.fst h1
      have hfvb : baseFill d col = fv := congrArg Prod.snd h1
      rw [← hfvb]
      exact baseFill_isSome d col hv (hstb.trans hst)
  | some o =>
      rw [hlk] at h
      dsimp only at h
      by_cases htr : overrideTruthy o = true
      · rw [if_pos htr] at h
        by_cases hoc : o.strategy.getD (baseStrategy d col) = "constant"
        · rw [if_pos hoc] at h
          cases hofv : o.fill_value with
          | none => rw [hofv] at h; exact absurd h (by simp)
          | some fvv =>
              rw [hofv] at h
              have h1 := (Except.ok.injEq _ _).mp h
              have : (some fvv : Option Val) = fv := congrArg Prod.snd h1
              rw [← this]
              rfl
        · rw [if_neg hoc] at h
          have h1 := (Except.ok.injEq _ _).mp h
          have hstb : o.strategy.getD (baseStrategy d col) = st := congrArg Prod.fst h1
          exact absurd (hstb.trans hst) hoc
      · rw [if_neg htr] at h
        have h1 := (Except.ok.injEq _ _).mp h
        have hstb : baseStrategy d col = st := congrArg Prod.fst h1
        have hfvb : baseFill d col = fv := congrArg Prod.snd h1
        rw [← hfvb]
        exact baseFill_isSome d col hv (hstb.trans hst)

theorem planFor_constant_fill (d : ImputationDecision) (name : String)
    (col : Col) (p : ColumnImputationPlan)
    (h : planFor d name col = .ok p) (hv : validateImpDecision d = .ok ())
    (hs : p.strategy = "constant") : p.fill_value.isSome = true := by
  unfold planFor at h
  cases hpsf : planStrategyFill d name col with
  | error e => rw [hpsf] at h; exact absurd h (by simp)
  | ok sf =>
      rw [hpsf] at h
      cases sf with
      | mk st fv =>
          dsimp only at h
          have h1 := (Except.ok.injEq _ _).mp h
          rw [← h1] at hs ⊢
          exact planStrategyFill_constant d name col st fv hpsf hs hv

theorem run_imputation_ok_elim (df : DataFrame) (s : NormalizationScope)
    (d : ImputationDecision) (pay : ImputePayload)
    (h : run_missing_imputation df (some s) d = .ok pay) :
    validateImpDecision d = .ok () ∧
    ¬ (s.target ≠ "" ∧ (scopedCols df s d).contains s.target = true) ∧
    ∃ plans rows tot aff,
      plansFor df d (scopedCols df s d) = .ok plans ∧
      execPlans df plans = .ok (pay.df, rows, tot, aff) := by
  unfold run_missing_imputation at h
  dsimp only at h
  cases hv : validateImpDecision d with
  | error e => rw [hv] at h; exact absurd h (by simp)
  | ok u =>
      cases u
      rw [hv] at h
      dsimp only at h
      unfold applyImputation at h
      dsimp only at h
      by_cases hguard : (s.target ≠ "" ∧ (scopedCols df s d).contains s.target = true)
      · rw [if_pos hguard] at h
        exact absurd h (by simp)
      · rw [if_neg hguard] at h
        cases hplans : plansFor df d (scopedCols df s d) with
        | error e => rw [hplans] at h; exact absurd h (by simp)
        | ok plans =>
            rw [hplans] at h
            dsimp only at h
            cases hexec : execPlans df plans with
            | error e => rw [hexec] at h; exact absurd h (by simp)
            | ok r =>
                rw [hexec] at h
                obtain ⟨dfA, rows, tot, aff⟩ := r
                dsimp only at h
                have h1 := (Except.ok.injEq _ _).mp h
                have hdf : pay.df = dfA := by rw [← h1]
                refine ⟨rfl, hguard, plans, rows, tot, aff, rfl, ?_⟩
                rw [hdf]
                exact hexec

-- ============================================================
-- C4 / C9 / C10
-- ============================================================

/-- C4 (amended): provided the scope's target is a non-empty string,
`run_missing_imputation` fails whenever the target lies in the resolved
column universe, and every successful run returns the target column
byte-identical to the input.  (The source guard is `if target and target in
scoped_cols`, so an empty-string target slips past it — see the
counterexample.) -/
theorem imputation_target_safety (df : DataFrame) (s : NormalizationScope)
    (d : ImputationDecision) (ht : s.target ≠ "") :
    ((scopedCols df s d).contains s.target = true →
      (run_missing_imputation df (some s) d).isOk = false) ∧
    (∀ pay, run_missing_imputation df (some s) d = .ok pay →
      getCol? pay.df s.target = getCol? df s.target) := by
  constructor
  · intro hmem
    unfold run_missing_imputation
    dsimp only
    cases hv : validateImpDecision d with
    | error e => rfl
    | ok u =>
        cases u
        dsimp only
        unfold applyImputation
        dsimp only
        rw [if_pos ⟨ht, hmem⟩]
        rfl
  · intro pay h
    rcases run_imputation_ok_elim df s d pay h with
      ⟨_, hnt, plans, rows, tot, aff, hplans, hexec⟩
    have hnm : (scopedCols df s d).contains s.target = false := by
      cases hcc : (scopedCols df s d).contains s.target with
      | false => rfl
      | true => exact absurd ⟨ht, hcc⟩ hnt
    have hcols := plansFor_columns df d _ plans hplans
    have hall : ∀ p ∈ plans, p.column ≠ s.target := by
      intro p hp he
      have : p.column ∈ (scopedCols df s d) := hcols ▸ List.mem_map_of_mem _ hp
      rw [he] at this
      simp at hnm
      exact absurd this hnm
    exact execPlans_preserves s.target plans df _ hall hexec

/-- C4 witness: a successful concrete run (non-empty target outside the
universe) leaves the target column unchanged. -/
theorem imputation_target_safety_witness :
    getCol? (match run_missing_imputation
        [("a", ⟨Dtype.float64, [none, some (Val.num 1)]⟩),
         ("T", ⟨Dtype.object, [some (Val.str "Yes"), none]⟩)]
        (some ⟨["a"], "T"⟩)
        ⟨some "median", some "most_frequent", none, none, none, [], []⟩ with
      | .ok pay => pay.df
      | .error _ => []) "T"
    = some ⟨Dtype.object, [some (Val.str "Yes"), none]⟩ := by
  have h := (imputation_target_safety
      [("a", ⟨Dtype.float64, [none, some (Val.num 1)]⟩),
       ("T", ⟨Dtype.object, [some (Val.str "Yes"), none]⟩)]
      ⟨["a"], "T"⟩
      ⟨some "median", some "most_frequent", none, none, none, [], []⟩
      (by decide)).2
  rw [show run_missing_imputation
        [("a", ⟨Dtype.float64, [none, some (Val.num 1)]⟩),
         ("T", ⟨Dtype.object, [some (Val.str "Yes"), none]⟩)]
        (some ⟨["a"], "T"⟩)
        ⟨some "median", some "most_frequent", none, none, none, [], []⟩
      = .ok ⟨[("a", ⟨Dtype.float64, [some (Val.num 1), some (Val.num 1)]⟩),
              ("T", ⟨Dtype.object, [some (Val.str "Yes"), none]⟩)],
             [⟨"a", Dtype.float64, "numeric", "median", some (Val.num 1), 1, 0, 1⟩],
             ⟨true, "", 1, 1, ["a"], [], true⟩⟩ from by decide] at h ⊢
  exact (h _ rfl).trans (by decide)

/-- C4 counterexample: with the (constructible) scope
`features = [""], target = ""`, the empty-string target is falsy in the
source's guard, so the run SUCCEEDS with the target inside the resolved
universe and the target column rewritten — refuting the unrestricted
claim. -/
theorem imputation_empty_target_imputed :
    (scopedCols [("", ⟨Dtype.float64, [none, some (Val.num 1)]⟩)] ⟨[""], ""⟩
        ⟨some "median", some "most_frequent", none, none, none, [], []⟩).contains "" = true ∧
    run_missing_imputation [("", ⟨Dtype.float64, [none, some (Val.num 1)]⟩)]
      (some ⟨[""], ""⟩)
      ⟨some "median", some "most_frequent", none, none, none, [], []⟩
    = .ok ⟨[("", ⟨Dtype.float64, [some (Val.num 1), some (Val.num 1)]⟩)],
           [⟨"", Dtype.float64, "numeric", "median", some (Val.num 1), 1, 0, 1⟩],
           ⟨true, "", 1, 1, [""], [], true⟩⟩ ∧
    (some (⟨Dtype.float64, [some (Val.num 1), some (Val.num 1)]⟩ : Col)
      ≠ some (⟨Dtype.float64, [none, some (Val.num 1)]⟩ : Col)) := by
  refine ⟨by decide, by decide, by decide⟩

/-- C10: when `scope` is `None`, `run_missing_imputation` returns the input
frame unchanged with `executed = false` and an explanatory reason, for
EVERY decision — including decisions missing the required strategy keys or
holding invalid strategy values, since the scope-absent path returns before
`_validate_decision` runs. -/
theorem imputation_skips_on_missing_scope (df : DataFrame) (d : ImputationDecision) :
    run_missing_imputation df none d
      = .ok ⟨df, [],
          ⟨false,
            "scope ausente; imputacao nao executada para evitar inferencia silenciosa.",
            0, 0, [], [], true⟩⟩ := rfl

/-- C9: an all-null column in the resolved universe always receives a plan;
if every plan for it requests a non-constant strategy the run fails, and a
successful run forces its plans to be `constant` with a declared fill
value. -/
theorem imputation_allnull_requires_constant (df : DataFrame)
    (s : NormalizationScope) (d : ImputationDecision) (c : String) (col : Col)
    (hc : c ∈ scopedCols df s d) (hcol : getCol? df c = some col)
    (hnull : dropna col.cells = []) :
    (∀ plans, plansFor df d (scopedCols df s d) = .ok plans →
      (∃ p ∈ plans, p.column = c) ∧
      ((∀ p ∈ plans, p.column = c → p.strategy ≠ "constant") →
        (run_missing_imputation df (some s) d).isOk = false)) ∧
    ((run_missing_imputation df (some s) d).isOk = true →
      ∀ plans, plansFor df d (scopedCols df s d) = .ok plans →
        ∀ p ∈ plans, p.column = c →
          p.strategy = "constant" ∧ p.fill_value.isSome = true) := by
  constructor
  · intro plans hplans
    have hcols := plansFor_columns df d _ plans hplans
    have hmapc : c ∈ plans.map (fun p => p.column) := hcols ▸ hc
    rcases List.mem_map.mp hmapc with ⟨p0, hp0, hp0c⟩
    refine ⟨⟨p0, hp0, hp0c⟩, ?_⟩
    intro hall
    unfold run_missing_imputation
    dsimp only
    cases hv : validateImpDecision d with
    | error e => rfl
    | ok u =>
        cases u
        dsimp only
        unfold applyImputation
        dsimp only
        by_cases hguard : (s.target ≠ "" ∧ (scopedCols df s d).contains s.target = true)
        · rw [if_pos hguard]
          rfl
        · rw [if_neg hguard, hplans]
          dsimp only
          have herr := execPlans_allnull_error c col hnull plans df hcol
            ⟨p0, hp0, hp0c⟩ hall
          cases hexec : execPlans df plans with
          | error e => rfl
          | ok r =>
              rw [hexec] at herr
              exact Bool.noConfusion herr
  · intro hok plans hplans p hp hpc
    rcases (by
      cases hrun : run_missing_imputation df (some s) d with
      | error e => rw [hrun] at hok; exact Bool.noConfusion hok
      | ok pay => exact ⟨pay, rfl⟩ :
        ∃ pay, run_missing_imputation df (some s) d = .ok pay) with ⟨pay, hrun⟩
    rcases run_imputation_ok_elim df s d pay hrun with
      ⟨hv, _, plans', rows, tot, aff, hplans', hexec⟩
    have hpe : plans' = plans := by
      rw [hplans] at hplans'
      exact ((Except.ok.injEq _ _).mp hplans').symm
    rw [hpe] at hexec
    have hpf : planFor d p.column col = .ok p :=
      plansFor_plan_unique df d _ plans hplans p hp col (hpc ▸ hcol)
    by_cases hstrat : p.strategy = "constant"
    · exact ⟨hstrat, planFor_constant_fill d p.column col p hpf hv hstrat⟩
    · exfalso
      have hall : ∀ q ∈ plans, q.column = c → q.strategy ≠ "constant" := by
        intro q hq hqc
        have hqf : planFor d q.column col = .ok q :=
          plansFor_plan_unique df d _ plans hplans q hq col (hqc ▸ hcol)
        rw [hqc] at hqf
        rw [hpc] at hpf
        rw [hpf] at hqf
        have : p = q := (Except.ok.injEq _ _).mp hqf
        rw [← this]
        exact hstrat
      have herr := execPlans_allnull_error c col hnull plans df hcol
        ⟨p, hp, hpc⟩ hall
      rw [hexec] at herr
      exact Bool.noConfusion herr

/-- C9 witness: the median strategy on an all-null column fails (via the
theorem), and the same run with an explicit constant fill succeeds. -/
theorem imputation_allnull_requires_constant_witness :
    (run_missing_imputation [("a", ⟨Dtype.float64, [none, none]⟩)]
        (some ⟨["a"], "T"⟩)
        ⟨some "median", some "most_frequent", none, none, none, [], []⟩).isOk = false ∧
    (run_missing_imputation [("a", ⟨Dtype.float64, [none, none]⟩)]
        (some ⟨["a"], "T"⟩)
        ⟨some "constant", some "most_frequent", some (Val.num 0), none, none, [],
          []⟩).isOk = true := by
  constructor
  · exact (((imputation_allnull_requires_constant
      [("a", ⟨Dtype.float64, [none, none]⟩)] ⟨["a"], "T"⟩
      ⟨some "median", some "most_frequent", none, none, none, [], []⟩
      "a" ⟨Dtype.float64, [none, none]⟩
      (by decide) (by decide) (by decide)).1
      [⟨"a", Dtype.float64, "numeric", "median", none⟩] (by decide)).2 (by decide))
  · decide

-- ============================================================
-- Contract lemmas
-- ============================================================

theorem getCol?_isSome_iff_contains (df : DataFrame) (c : String) :
    (getCol? df c).isSome = true ↔ (colNames df).contains c = true := by
  induction df with
  | nil => simp [getCol?, colNames]
  | cons hd tl ih =>
      by_cases hc : hd.1 = c
      · unfold getCol? colNames
        rw [List.map_cons, List.find?_cons_of_pos _ (by simpa using hc)]
        constructor
        · intro _
          rw [List.contains_cons]
          have hb : (c == hd.1) = true := by simp [hc]
          rw [hb]
          rfl
        · intro _
          rfl
      · unfold getCol? colNames at *
        rw [List.map_cons, List.find?_cons_of_neg _ (by simpa using hc)]
        rw [ih]
        simp only [List.contains_cons]
        have : (c == hd.1) = false := by
          simpa using fun he => hc he.symm
        rw [this]
        simp

theorem selectCols_colNames (df : DataFrame) :
    ∀ cols : List String, (∀ x ∈ cols, (colNames df).contains x = true) →
      colNames (selectCols df cols) = cols := by
  intro cols
  induction cols with
  | nil => intro _; rfl
  | cons c rest ih =>
      intro hall
      have hsome : (getCol? df c).isSome = true :=
        (getCol?_isSome_iff_contains df c).mpr (hall c (List.mem_cons_self _ _))
      rcases Option.isSome_iff_exists.mp hsome with ⟨col, hcol⟩
      unfold selectCols colNames at *
      rw [List.filterMap_cons, hcol]
      simp only [Option.map_some', List.map_cons]
      rw [ih (fun x hx => hall x (List.mem_cons_of_mem _ hx))]

theorem getCol?_selectCols_mem (df : DataFrame) :
    ∀ cols : List String, (∀ x ∈ cols, (colNames df).contains x = true) →
      ∀ c ∈ cols, getCol? (selectCols df cols) c = getCol? df c := by
  intro cols
  induction cols with
  | nil => intro _ c hc; cases hc
  | cons k rest ih =>
      intro hall c hc
      have hsome : (getCol? df k).isSome = true :=
        (getCol?_isSome_iff_contains df k).mpr (hall k (List.mem_cons_self _ _))
      rcases Option.isSome_iff_exists.mp hsome with ⟨colk, hcolk⟩
      have hsel : selectCols df (k :: rest) = (k, colk) :: selectCols df rest := by
        unfold selectCols
        rw [List.filterMap_cons, hcolk]
        rfl
      rw [hsel]
      by_cases hkc : k = c
      · subst hkc
        rw [hcolk]
        unfold getCol?
        rw [List.find?_cons_of_pos _ (by simp)]
        rfl
      · have hcr : c ∈ rest := by
          rcases List.mem_cons.mp hc with he | hm
          · exact absurd he.symm hkc
          · exact hm
        have hrest := ih (fun x hx => hall x (List.mem_cons_of_mem _ hx)) c hcr
        rw [← hrest]
        unfold getCol?
        rw [List.find?_cons_of_neg _ (by simpa using hkc)]

theorem contains_eq_false_iff_not_mem {l : List String} {a : String} :
    l.contains a = false ↔ a ∉ l := by
  simp [List.elem_eq_mem]

-- ============================================================
-- C3
-- ============================================================

/-- C3: `enforce_contract_columns` fails exactly when `strict` holds and
some expected column is missing; on success `kept` is the expected list
restricted to present columns (order preserved), `missing` the expected
list restricted to absent columns, `dropped` holds exactly the frame
columns outside the expected list, and the returned frame carries exactly
the kept columns with their original data. -/
theorem contract_enforcement (df : DataFrame) (E : List String) (strict : Bool)
    (scope : Option NormalizationScope) :
    ((enforce_contract_columns df E strict scope).isOk = false ↔
      strict = true ∧ E.filter (fun c => !((colNames df).contains c)) ≠ []) ∧
    (∀ r, enforce_contract_columns df E strict scope = .ok r →
      r.kept_columns = E.filter (fun c => (colNames df).contains c) ∧
      r.missing_contract_columns = E.filter (fun c => !((colNames df).contains c)) ∧
      (∀ c, c ∈ r.dropped_columns ↔ c ∈ colNames df ∧ c ∉ E) ∧
      colNames r.df = r.kept_columns ∧
      (∀ c ∈ r.kept_columns, getCol? r.df c = getCol? df c)) := by
  unfold enforce_contract_columns
  dsimp only
  by_cases hcond :
      (strict && !(E.filter (fun c => !((colNames df).contains c))).isEmpty) = true
  · rw [if_pos hcond]
    have hcond2 : strict = true ∧ E.filter (fun c => !((colNames df).contains c)) ≠ [] := by
      simpa using hcond
    constructor
    · constructor
      · intro _
        exact hcond2
      · intro _
        rfl
    · intro r hr
      exact absurd hr (by simp)
  · rw [if_neg hcond]
    have hcond2 : ¬ (strict = true ∧
        E.filter (fun c => !((colNames df).contains c)) ≠ []) := by
      intro hrhs
      exact hcond (by simpa using hrhs)
    constructor
    · constructor
      · intro hk
        exact Bool.noConfusion hk
      · intro hrhs
        exact absurd hrhs hcond2
    · intro r hr
      have h1 := (Except.ok.injEq _ _).mp hr
      rw [← h1]
      have hallkept : ∀ x ∈ E.filter (fun c => (colNames df).contains c),
          (colNames df).contains x = true := by
        intro x hx
        exact (List.mem_filter.mp hx).2
      refine ⟨rfl, rfl, ?_, ?_, ?_⟩
      · intro c
        rw [List.mem_insertionSort, List.mem_filter]
        simp only [Bool.not_eq_true', contains_eq_false_iff_not_mem]
        constructor
        · rintro ⟨hmem, hnk⟩
          refine ⟨hmem, fun hE => hnk ?_⟩
          refine List.mem_filter.mpr ⟨hE, ?_⟩
          simp only [List.elem_eq_mem, decide_eq_true_eq]
          exact hmem
        · rintro ⟨hmem, hnE⟩
          exact ⟨hmem, fun hk => hnE (List.mem_filter.mp hk).1⟩
      · exact selectCols_colNames df _ hallkept
      · intro c hc
        exact getCol?_selectCols_mem df _ hallkept c hc

/-- C3 witness: a concrete enforcement run with one kept, one missing and
one dropped column. -/
theorem contract_enforcement_witness :
    (enforce_contract_columns
        [("a", ⟨Dtype.int64, [some (Val.num 3)]⟩), ("b", ⟨Dtype.object, [none]⟩)]
        ["a", "x"] false none).isOk = true ∧
    (∀ r, enforce_contract_columns
        [("a", ⟨Dtype.int64, [some (Val.num 3)]⟩), ("b", ⟨Dtype.object, [none]⟩)]
        ["a", "x"] false none = .ok r →
      r.kept_columns = ["a"] ∧ r.missing_contract_columns = ["x"] ∧
      ("b" ∈ r.dropped_columns ↔ True) ∧ colNames r.df = r.kept_columns) := by
  constructor
  · decide
  · intro r hr
    rcases (contract_enforcement
        [("a", ⟨Dtype.int64, [some (Val.num 3)]⟩), ("b", ⟨Dtype.object, [none]⟩)]
        ["a", "x"] false none).2 r hr with ⟨hk, hm, hd, hn, _⟩
    refine ⟨by rw [hk]; decide, by rw [hm]; decide, ?_, hn⟩
    rw [hd "b"]
    exact iff_of_true ⟨by decide, by decide⟩ trivial

-- ============================================================
-- C2: scope construction vs contract loading
-- ============================================================

theorem dedupeAux_mem {α : Type} [DecidableEq α] (a : α) :
    ∀ (l seen : List α), a ∈ dedupeAux seen l ↔ a ∈ l ∧ a ∉ seen := by
  intro l
  induction l with
  | nil => intro seen; simp [dedupeAux]
  | cons x xs ih =>
      intro seen
      unfold dedupeAux
      by_cases hx : x ∈ seen
      · rw [if_pos hx, ih]
        constructor
        · intro ⟨hm, hns⟩
          exact ⟨List.mem_cons_of_mem _ hm, hns⟩
        · intro ⟨hm, hns⟩
          rcases List.mem_cons.mp hm with he | hm2
          · exact absurd (he ▸ hx) hns
          · exact ⟨hm2, hns⟩
      · rw [if_neg hx]
        by_cases hax : a = x
        · subst hax
          simp [hx]
        · constructor
          · intro hm
            rcases List.mem_cons.mp hm with he | hm2
            · exact absurd he hax
            · rcases (ih (x :: seen)).mp hm2 with ⟨hmx, hns⟩
              refine ⟨List.mem_cons_of_mem _ hmx, fun hs => hns (List.mem_cons_of_mem _ hs)⟩
          · intro ⟨hm, hns⟩
            rcases List.mem_cons.mp hm with he | hm2
            · exact absurd he hax
            · refine List.mem_cons_of_mem _ ((ih (x :: seen)).mpr ⟨hm2, ?_⟩)
              intro hs
              rcases List.mem_cons.mp hs with he | hs2
              · exact hax he
              · exact hns hs2

theorem mem_dedupePreserveOrder {α : Type} [DecidableEq α] (a : α) (l : List α) :
    a ∈ dedupePreserveOrder l ↔ a ∈ l := by
  unfold dedupePreserveOrder
  rw [dedupeAux_mem]
  simp

theorem dedupePreserveOrder_ne_nil {α : Type} [DecidableEq α] (l : List α)
    (h : l ≠ []) : dedupePreserveOrder l ≠ [] := by
  cases l with
  | nil => exact absurd rfl h
  | cons x xs =>
      unfold dedupePreserveOrder dedupeAux
      simp

theorem asStr_ok (v : Option String) (t : String) (h : asStr v = .ok t) :
    ∃ s, v = some s ∧ t = pyStrip s ∧ t ≠ "" := by
  unfold asStr at h
  cases v with
  | none => exact absurd h (by simp)
  | some s =>
      dsimp only at h
      by_cases he : pyStrip s = ""
      · rw [if_pos he] at h
        exact absurd h (by simp)
      · rw [if_neg he] at h
        have h1 := (Except.ok.injEq _ _).mp h
        exact ⟨s, rfl, h1.symm, by rw [← h1]; exact he⟩

theorem asListStr_ok_required (v : Option (List String)) (l : List String)
    (h : asListStr v false = .ok l) :
    ∃ fs, v = some fs ∧ fs ≠ [] ∧ l = fs.map pyStrip ∧ l ≠ [] := by
  unfold asListStr at h
  cases v with
  | none => exact absurd h (by simp)
  | some fs =>
      dsimp only at h
      by_cases hbad : fs.any (fun s => pyStrip s = "") = true
      · rw [if_pos hbad] at h
        exact absurd h (by simp)
      · rw [if_neg hbad] at h
        by_cases hemp : (!false && fs.isEmpty) = true
        · rw [if_pos hemp] at h
          exact absurd h (by simp)
        · rw [if_neg hemp] at h
          have h1 := (Except.ok.injEq _ _).mp h
          have hfs : fs ≠ [] := by
            intro he
            apply hemp
            rw [he]
            rfl
          refine ⟨fs, rfl, hfs, h1.symm, ?_⟩
          rw [← h1]
          simpa using hfs

/-- C2 counterexample: `NormalizationScope` is an unvalidated frozen
dataclass, so a scope whose target sits inside its features (and even one
with empty features and empty target) is constructible and fully usable —
refuting "constructing a Scope that violates this fails". -/
theorem scope_invariant_not_enforced_by_constructor :
    (NormalizationScope.mk ["Churn", "tenure"] "Churn").target
        ∈ (NormalizationScope.mk ["Churn", "tenure"] "Churn").features ∧
    (NormalizationScope.mk ["Churn", "tenure"] "Churn").keep_columns
        = ["Churn", "tenure", "Churn"] ∧
    (NormalizationScope.mk [] "").features = [] := by
  refine ⟨by decide, by decide, rfl⟩

/-- C2 (amended): the scope invariant is enforced by the contract loader,
not the `NormalizationScope` constructor: every configuration produced by
`load_contract` has a non-empty target outside its non-empty features (and
so does the scope derived from it), and the loader only succeeds on a
schema whose declared target is non-empty and absent from the declared
features. -/
theorem contract_loader_scope_invariant :
    (∀ schema cfg, load_contract schema = .ok cfg →
      cfg.target ∉ cfg.features ∧ cfg.features ≠ [] ∧ cfg.target ≠ "" ∧
      cfg.to_scope.target ∉ cfg.to_scope.features) ∧
    (∀ schema, (load_contract schema).isOk = true →
      ∃ t fs, schema.target = some t ∧ schema.features = some fs ∧
        pyStrip t ≠ "" ∧ fs ≠ [] ∧ pyStrip t ∉ fs.map pyStrip) := by
  have key : ∀ schema cfg, load_contract schema = .ok cfg →
      (cfg.target ∉ cfg.features ∧ cfg.features ≠ [] ∧ cfg.target ≠ "") ∧
      (∃ t fs, schema.target = some t ∧ schema.features = some fs ∧
        pyStrip t ≠ "" ∧ fs ≠ [] ∧ pyStrip t ∉ fs.map pyStrip) := by
    intro schema cfg h
    unfold load_contract at h
    cases ht : asStr schema.target with
    | error e => rw [ht] at h; exact absurd h (by simp)
    | ok target =>
        rw [ht] at h
        dsimp only at h
        cases hf : asListStr schema.features false with
        | error e => rw [hf] at h; exact absurd h (by simp)
        | ok features0 =>
            rw [hf] at h
            dsimp only at h
            cases hi : asListStr schema.id_columns true with
            | error e => rw [hi] at h; exact absurd h (by simp)
            | ok id0 =>
                rw [hi] at h
                dsimp only at h
                cases hd : asListStr schema.drop_columns true with
                | error e => rw [hd] at h; exact absurd h (by simp)
                | ok drop0 =>
                    rw [hd] at h
                    dsimp only at h
                    by_cases hmem : target ∈ dedupePreserveOrder features0
                    · rw [if_pos hmem] at h
                      exact absurd h (by simp)
                    · rw [if_neg hmem] at h
                      have h1 := (Except.ok.injEq _ _).mp h
                      rcases asStr_ok schema.target target ht with ⟨t, hts, htp, htne⟩
                      rcases asListStr_ok_required schema.features features0 hf with
                        ⟨fs, hfss, hfsne, hfmap, hf0ne⟩
                      constructor
                      · rw [← h1]
                        exact ⟨hmem, dedupePreserveOrder_ne_nil _ hf0ne, htne⟩
                      · refine ⟨t, fs, hts, hfss, htp ▸ htne, hfsne, ?_⟩
                        rw [← htp, ← hfmap]
                        intro hin
                        exact hmem ((mem_dedupePreserveOrder _ _).mpr hin)
  constructor
  · intro schema cfg h
    rcases key schema cfg h with ⟨⟨ha, hb, hc⟩, _⟩
    exact ⟨ha, hb, hc, ha⟩
  · intro schema hok
    cases hrun : load_contract schema with
    | error e => rw [hrun] at hok; exact Bool.noConfusion hok
    | ok cfg => exact (key schema cfg hrun).2

/-- C2 witness: a concrete schema loads into a configuration whose target
is outside its features, while directly constructing the violating scope
(counterexample above) succeeds. -/
theorem contract_loader_scope_invariant_witness :
    load_contract ⟨some " Churn ", some ["tenure", "contract"], none, none⟩
      = .ok ⟨["tenure", "contract"], "Churn", [], []⟩ ∧
    ("Churn" ∉ (["tenure", "contract"] : List String) ∧
      (["tenure", "contract"] : List String) ≠ [] ∧ "Churn" ≠ "") := by
  constructor
  · decide
  · have h := (contract_loader_scope_invariant).1
      ⟨some " Churn ", some ["tenure", "contract"], none, none⟩
      ⟨["tenure", "contract"], "Churn", [], []⟩ (by decide)
    exact ⟨h.1, h.2.1, h.2.2.1⟩

-- ============================================================
-- Representation lemmas
-- ============================================================

theorem validateRepDecision_map_binary (d : RepDecisionInput)
    (dec : RepresentationDecision) (h : validateRepDecision d = .ok dec)
    (hs : d.y_strategy = some "map_binary") :
    dec.y_strategy = "map_binary" ∧ dec.y_mapping = d.y_mapping := by
  unfold validateRepDecision at h
  by_cases h1 : d.x_cat_strategy ≠ some "onehot"
  · rw [if_pos h1] at h
    exact absurd h (by simp)
  · rw [if_neg h1] at h
    by_cases h2 : d.x_cat_handle_unknown ≠ some "ignore"
    · rw [if_pos h2] at h
      exact absurd h (by simp)
    · rw [if_neg h2] at h
      by_cases h3 : ¬ (d.x_num_strategy = some "passthrough"
          ∨ d.x_num_strategy = some "standard_scaler")
      · rw [if_pos h3] at h
        exact absurd h (by simp)
      · rw [if_neg h3] at h
        by_cases h4 : ¬ (d.y_strategy = some "map_binary"
            ∨ d.y_strategy = some "passthrough")
        · rw [if_pos h4] at h
          exact absurd h (by simp)
        · rw [if_neg h4] at h
          by_cases h5 : (d.y_strategy = some "map_binary" ∧
              (d.y_mapping.getD []) = ([] : List (Val × Int)))
          · rw [if_pos h5] at h
            exact absurd h (by simp)
          · rw [if_neg h5] at h
            have h6 := (Except.ok.injEq _ _).mp h
            rw [← h6]
            constructor
            · rw [hs]
              rfl
            · rw [if_pos hs]

theorem run_repr_ok_elim (split : SplitData) (scope : NormalizationScope)
    (d : RepDecisionInput) (pay : RepresentationPayload)
    (h : run_supervised_representation split scope d = .ok pay) :
    ∃ dec catColumns numColumns,
      validateRepDecision d = .ok dec ∧
      inferColumnRoles split.X_train scope = .ok (catColumns, numColumns) ∧
      fitTransformer catColumns numColumns dec split.X_train = .ok pay.transformer ∧
      ∃ ytr yte tm,
        representTarget split.y_train split.y_test dec = .ok (ytr, yte, tm) := by
  unfold run_supervised_representation at h
  cases h0 : validateScopeAgainstSplit split scope with
  | error e => rw [h0] at h; exact absurd h (by simp)
  | ok u =>
      cases u
      rw [h0] at h
      dsimp only at h
      cases hv : validateRepDecision d with
      | error e => rw [hv] at h; exact absurd h (by simp)
      | ok dec =>
          rw [hv] at h
          dsimp only at h
          cases hroles : inferColumnRoles split.X_train scope with
          | error e => rw [hroles] at h; exact absurd h (by simp)
          | ok roles =>
              rw [hroles] at h
              obtain ⟨catColumns, numColumns⟩ := roles
              dsimp only at h
              cases hfit : fitTransformer catColumns numColumns dec split.X_train with
              | error e => rw [hfit] at h; exact absurd h (by simp)
              | ok t =>
                  rw [hfit] at h
                  dsimp only at h
                  cases htr : transformX t split.X_train with
                  | error e => rw [htr] at h; exact absurd h (by simp)
                  | ok xtr =>
                      rw [htr] at h
                      dsimp only at h
                      cases hte : transformX t split.X_test with
                      | error e => rw [hte] at h; exact absurd h (by simp)
                      | ok xte =>
                          rw [hte] at h
                          dsimp only at h
                          cases hrt : representTarget split.y_train split.y_test dec with
                          | error e => rw [hrt] at h; exact absurd h (by simp)
                          | ok res =>
                              rw [hrt] at h
                              obtain ⟨ytr, yte, tm⟩ := res
                              dsimp only at h
                              have h1 := (Except.ok.injEq _ _).mp h
                              have hpt : pay.transformer = t := by rw [← h1]
                              exact ⟨dec, catColumns, numColumns, rfl, rfl,
                                hpt ▸ hfit, ytr, yte, tm, hrt⟩

theorem representTarget_uncovered (y1 y2 : Series) (dec : RepresentationDecision)
    (m : List (Val × Int)) (hs : dec.y_strategy = "map_binary")
    (hm : dec.y_mapping = some m)
    (hex : ∃ v ∈ dedupePreserveOrder (dropna (y1.cells ++ y2.cells)),
      (lookupVal m v).isNone = true) :
    representTarget y1 y2 dec
      = .error "mapping nao cobre todos os valores observados no target." := by
  unfold representTarget
  rw [hs]
  rw [if_neg (by decide : ¬ ("map_binary" : String) = "passthrough")]
  rw [if_neg (by simp : ¬ ("map_binary" : String) ≠ "map_binary")]
  rw [hm]
  dsimp only
  rcases hex with ⟨v, hv, hvn⟩
  have hne : (dedupePreserveOrder (dropna (y1.cells ++ y2.cells))).filter
      (fun v => (lookupVal m v).isNone) ≠ [] := by
    apply List.ne_nil_of_mem (a := v)
    exact List.mem_filter.mpr ⟨hv, hvn⟩
  rw [if_pos hne]

theorem representTarget_ok_covered (y1 y2 : Series) (dec : RepresentationDecision)
    (m : List (Val × Int)) (res : YRepr × YRepr × Option (List (Val × Int)))
    (hs : dec.y_strategy = "map_binary") (hm : dec.y_mapping = some m)
    (h : representTarget y1 y2 dec = .ok res) :
    ∀ v ∈ dedupePreserveOrder (dropna (y1.cells ++ y2.cells)),
      (lookupVal m v).isSome = true := by
  unfold representTarget at h
  rw [hs] at h
  rw [if_neg (by decide : ¬ ("map_binary" : String) = "passthrough")] at h
  rw [if_neg (by simp : ¬ ("map_binary" : String) ≠ "map_binary")] at h
  rw [hm] at h
  dsimp only at h
  by_cases hne : (dedupePreserveOrder (dropna (y1.cells ++ y2.cells))).filter
      (fun v => (lookupVal m v).isNone) ≠ []
  · rw [if_pos hne] at h
    exact absurd h (by simp)
  · intro v hv
    have hnil := not_not.mp hne
    have hno : ¬ ((lookupVal m v).isNone = true) :=
      List.filter_eq_nil_iff.mp hnil v hv
    cases hcase : (lookupVal m v) with
    | none => exact absurd (by rw [hcase]; rfl) hno
    | some i => rfl

-- ============================================================
-- C1 / C8
-- ============================================================

/-- C1: the fitted transformer is a function of the decision, the scope and
`X_train` only — two successful runs with the same scope and decision and
the same `X_train` (but arbitrary, possibly different, same-schema
`X_test`) produce byte-identical fitted transformer state. -/
theorem representation_fit_depends_only_on_train (s1 s2 : SplitData)
    (scope : NormalizationScope) (d : RepDecisionInput)
    (p1 p2 : RepresentationPayload)
    (h1 : run_supervised_representation s1 scope d = .ok p1)
    (h2 : run_supervised_representation s2 scope d = .ok p2)
    (hX : s1.X_train = s2.X_train) :
    p1.transformer = p2.transformer := by
  rcases run_repr_ok_elim s1 scope d p1 h1 with
    ⟨dec1, cat1, num1, hv1, hr1, hf1, _, _, _, _⟩
  rcases run_repr_ok_elim s2 scope d p2 h2 with
    ⟨dec2, cat2, num2, hv2, hr2, hf2, _, _, _, _⟩
  rw [hv1] at hv2
  have hdec : dec1 = dec2 := (Except.ok.injEq _ _).mp hv2
  rw [hX] at hr1
  rw [hr1] at hr2
  have hroles := (Except.ok.injEq _ _).mp hr2
  have hcat : cat1 = cat2 := congrArg Prod.fst hroles
  have hnum : num1 = num2 := congrArg Prod.snd hroles
  rw [hX, hdec, hcat, hnum] at hf1
  rw [hf1] at hf2
  exact (Except.ok.injEq _ _).mp hf2

/-- C1 witness: two concrete runs sharing `X_train` but with different
`X_test` values produce equal fitted transformers (here: the same one-hot
category list, fitted from the train partition alone). -/
theorem representation_fit_depends_only_on_train_witness :
    run_supervised_representation
      ⟨[("a", ⟨Dtype.object, [some (Val.str "x")]⟩)],
       [("a", ⟨Dtype.object, [some (Val.str "x")]⟩)],
       ⟨some "t", [some (Val.str "p")]⟩, ⟨some "t", [some (Val.str "q")]⟩⟩
      ⟨["a"], "t"⟩
      ⟨some "onehot", some "ignore", some "passthrough", some "passthrough",
        none, none⟩
      = .ok ⟨[("cat_onehot__a_x", [some (SVal.raw 1)])],
             [("cat_onehot__a_x", [some (SVal.raw 1)])],
             .cells [some (Val.str "p")], .cells [some (Val.str "q")],
             ["cat_onehot__a_x"],
             ⟨some [("a", [some (Val.str "x")])], none⟩, none⟩ ∧
    run_supervised_representation
      ⟨[("a", ⟨Dtype.object, [some (Val.str "x")]⟩)],
       [("a", ⟨Dtype.object, [some (Val.str "z")]⟩)],
       ⟨some "t", [some (Val.str "p")]⟩, ⟨some "t", [some (Val.str "q")]⟩⟩
      ⟨["a"], "t"⟩
      ⟨some "onehot", some "ignore", some "passthrough", some "passthrough",
        none, none⟩
      = .ok ⟨[("cat_onehot__a_x", [some (SVal.raw 1)])],
             [("cat_onehot__a_x", [some (SVal.raw 0)])],
             .cells [some (Val.str "p")], .cells [some (Val.str "q")],
             ["cat_onehot__a_x"],
             ⟨some [("a", [some (Val.str "x")])], none⟩, none⟩ ∧
    (RepresentationPayload.transformer
        ⟨[("cat_onehot__a_x", [some (SVal.raw 1)])],
         [("cat_onehot__a_x", [some (SVal.raw 1)])],
         .cells [some (Val.str "p")], .cells [some (Val.str "q")],
         ["cat_onehot__a_x"],
         ⟨some [("a", [some (Val.str "x")])], none⟩, none⟩
      = RepresentationPayload.transformer
        ⟨[("cat_onehot__a_x", [some (SVal.raw 1)])],
         [("cat_onehot__a_x", [some (SVal.raw 0)])],
         .cells [some (Val.str "p")], .cells [some (Val.str "q")],
         ["cat_onehot__a_x"],
         ⟨some [("a", [some (Val.str "x")])], none⟩, none⟩) := by
  refine ⟨by decide, by decide, ?_⟩
  exact representation_fit_depends_only_on_train
    ⟨[("a", ⟨Dtype.object, [some (Val.str "x")]⟩)],
     [("a", ⟨Dtype.object, [some (Val.str "x")]⟩)],
     ⟨some "t", [some (Val.str "p")]⟩, ⟨some "t", [some (Val.str "q")]⟩⟩
    ⟨[("a", ⟨Dtype.object, [some (Val.str "x")]⟩)],
     [("a", ⟨Dtype.object, [some (Val.str "z")]⟩)],
     ⟨some "t", [some (Val.str "p")]⟩, ⟨some "t", [some (Val.str "q")]⟩⟩
    ⟨["a"], "t"⟩
    ⟨some "onehot", some "ignore", some "passthrough", some "passthrough",
      none, none⟩
    _ _ (by decide) (by decide) rfl

/-- C8: with `y.strategy = map_binary` and a supplied mapping, the run
fails whenever some (non-null) value observed across `y_train ∪ y_test` is
absent from the mapping, and a successful run implies the mapping covers
every observed value. -/
theorem target_mapping_coverage (split : SplitData) (scope : NormalizationScope)
    (d : RepDecisionInput) (m : List (Val × Int))
    (hstrat : d.y_strategy = some "map_binary") (hm : d.y_mapping = some m) :
    ((∃ v ∈ dedupePreserveOrder (dropna (split.y_train.cells ++ split.y_test.cells)),
        (lookupVal m v).isNone = true) →
      (run_supervised_representation split scope d).isOk = false) ∧
    ((run_supervised_representation split scope d).isOk = true →
      ∀ v ∈ dedupePreserveOrder (dropna (split.y_train.cells ++ split.y_test.cells)),
        (lookupVal m v).isSome = true) := by
  constructor
  · intro hex
    cases hrun : run_supervised_representation split scope d with
    | error e => rfl
    | ok pay =>
        exfalso
        rcases run_repr_ok_elim split scope d pay hrun with
          ⟨dec, _, _, hv, _, _, ytr, yte, tm, hrt⟩
        rcases validateRepDecision_map_binary d dec hv hstrat with ⟨hds, hdm⟩
        rw [hm] at hdm
        rw [representTarget_uncovered split.y_train split.y_test dec m hds hdm hex]
          at hrt
        exact absurd hrt (by simp)
  · intro hok v hv
    cases hrun : run_supervised_representation split scope d with
    | error e => rw [hrun] at hok; exact Bool.noConfusion hok
    | ok pay =>
        rcases run_repr_ok_elim split scope d pay hrun with
          ⟨dec, _, _, hvd, _, _, ytr, yte, tm, hrt⟩
        rcases validateRepDecision_map_binary d dec hvd hstrat with ⟨hds, hdm⟩
        rw [hm] at hdm
        exact representTarget_ok_covered split.y_train split.y_test dec m
          (ytr, yte, tm) hds hdm hrt v hv

/-- C8 witness: a mapping missing the test-side value "q" makes the run
fail (via the theorem); adding it makes the run succeed. -/
theorem target_mapping_coverage_witness :
    (run_supervised_representation
        ⟨[("a", ⟨Dtype.object, [some (Val.str "x")]⟩)],
         [("a", ⟨Dtype.object, [some (Val.str "x")]⟩)],
         ⟨some "t", [some (Val.str "p")]⟩, ⟨some "t", [some (Val.str "q")]⟩⟩
        ⟨["a"], "t"⟩
        ⟨some "onehot", some "ignore", some "passthrough", some "map_binary",
          some [(Val.str "p", 1)], none⟩).isOk = false ∧
    (run_supervised_representation
        ⟨[("a", ⟨Dtype.object, [some (Val.str "x")]⟩)],
         [("a", ⟨Dtype.object, [some (Val.str "x")]⟩)],
         ⟨some "t", [some (Val.str "p")]⟩, ⟨some "t", [some (Val.str "q")]⟩⟩
        ⟨["a"], "t"⟩
        ⟨some "onehot", some "ignore", some "passthrough", some "map_binary",
          some [(Val.str "p", 1), (Val.str "q", 0)], none⟩).isOk = true := by
  constructor
  · exact (target_mapping_coverage
      ⟨[("a", ⟨Dtype.object, [some (Val.str "x")]⟩)],
       [("a", ⟨Dtype.object, [some (Val.str "x")]⟩)],
       ⟨some "t", [some (Val.str "p")]⟩, ⟨some "t", [some (Val.str "q")]⟩⟩
      ⟨["a"], "t"⟩
      ⟨some "onehot", some "ignore", some "passthrough", some "map_binary",
        some [(Val.str "p", 1)], none⟩
      [(Val.str "p", 1)] rfl rfl).1
      ⟨Val.str "q", by decide, by decide⟩
  · decide

-- ============================================================
-- C7
-- ============================================================

/-- C7: `run_train_test_split` depends on the external split routine only
through its value at the single declared call `splitCallOf df scope d`,
whose every component is a pure function of the table, the scope and the
decision (`test_size`, `random_state`, `shuffle`, `stratify`).  Hence two
calls whose (deterministic, integer-seeded) library agrees at those exact
arguments — in particular two repeated calls of the same seeded library —
return identical X_train/X_test/y_train/y_test partitions. -/
theorem split_determinism (tts1 tts2 : SplitCall → SplitResult)
    (df : DataFrame) (scope : NormalizationScope) (d : SplitDecision)
    (h : tts1 (splitCallOf df scope d) = tts2 (splitCallOf df scope d)) :
    run_train_test_split tts1 df scope d = run_train_test_split tts2 df scope d := by
  unfold run_train_test_split
  cases hs : validateSplitScope df scope with
  | error e => rfl
  | ok u =>
      cases u
      dsimp only
      cases hd : validateSplitDecision d scope with
      | error e => rfl
      | ok u2 =>
          cases u2
          dsimp only
          rw [h]

/-- C7 witness: two different library oracles that agree at the declared
call produce the same successful payload on a concrete run, whose split is
the deterministic contiguous partition. -/
theorem split_determinism_witness :
    run_train_test_split modelSplit
      [("a", ⟨Dtype.int64, [some (Val.num 1), some (Val.num 2), some (Val.num 3)]⟩),
       ("T", ⟨Dtype.object,
          [some (Val.str "y"), some (Val.str "n"), some (Val.str "y")]⟩)]
      ⟨["a"], "T"⟩ ⟨.count 1, 0, false, false, none, none⟩
    = run_train_test_split modelSplitB
      [("a", ⟨Dtype.int64, [some (Val.num 1), some (Val.num 2), some (Val.num 3)]⟩),
       ("T", ⟨Dtype.object,
          [some (Val.str "y"), some (Val.str "n"), some (Val.str "y")]⟩)]
      ⟨["a"], "T"⟩ ⟨.count 1, 0, false, false, none, none⟩ ∧
    (run_train_test_split modelSplit
      [("a", ⟨Dtype.int64, [some (Val.num 1), some (Val.num 2), some (Val.num 3)]⟩),
       ("T", ⟨Dtype.object,
          [some (Val.str "y"), some (Val.str "n"), some (Val.str "y")]⟩)]
      ⟨["a"], "T"⟩ ⟨.count 1, 0, false, false, none, none⟩).isOk = true := by
  constructor
  · exact split_determinism modelSplit modelSplitB
      [("a", ⟨Dtype.int64, [some (Val.num 1), some (Val.num 2), some (Val.num 3)]⟩),
       ("T", ⟨Dtype.object,
          [some (Val.str "y"), some (Val.str "n"), some (Val.str "y")]⟩)]
      ⟨["a"], "T"⟩ ⟨.count 1, 0, false, false, none, none⟩ (by decide)
  · decide

end ChurnInsight
